import Mathlib

/-
  Shallow embedding of the transcription_library repository
  (core/manager.py, core/interfaces.py, core/utils.py and the three
  providers), with theorems settling the frozen claims about it.

  Modelling conventions:
  * Python floats are modelled as Rat; the code only builds them from
    decimal literals and compares them, so this is exact for every
    construction the claims touch.
  * Python dicts are association lists with first-match lookup and
    in-place replacement on insert (dictGet / dictInsert below).
  * A Python exception escaping a function is Except.error; a normal
    return is Except.ok.
  * Wall-clock durations (time.time() deltas) are passed in as an
    `elapsed` parameter, since real time is outside the embedding.
-/

namespace Transcriber

/-- Python str.strip(): remove leading and trailing whitespace. Implemented
structurally over the character list so that concrete runs reduce in the
kernel. -/
def pyStrip (s : String) : String :=
  String.mk (((s.data.dropWhile Char.isWhitespace).reverse.dropWhile Char.isWhitespace).reverse)

/-- Python str.startswith(pre), structurally over the character lists. -/
def str_startsWith (s pre : String) : Bool := pre.data.isPrefixOf s.data

/-- Lookup in a Python-dict-like association list (first match wins). -/
def dictGet (k : String) : List (String × α) → Option α
  | [] => none
  | (k1, v) :: rest => if k1 = k then some v else dictGet k rest

/-- Insert into a Python-dict-like association list: replace the existing
binding in place, else append. -/
def dictInsert (k : String) (v : α) : List (String × α) → List (String × α)
  | [] => [(k, v)]
  | (k1, v1) :: rest => if k1 = k then (k, v) :: rest else (k1, v1) :: dictInsert k v rest

theorem dictGet_insert_self (k : String) (v : α) (m : List (String × α)) :
    dictGet k (dictInsert k v m) = some v := by
  induction m with
  | nil => simp [dictGet, dictInsert]
  | cons hd tl ih =>
    obtain ⟨k1, v1⟩ := hd
    by_cases h : k1 = k
    · simp [dictGet, dictInsert, h]
    · simp [dictGet, dictInsert, h, ih]

theorem dictGet_insert_ne (k k2 : String) (v : α) (m : List (String × α)) (h : k2 ≠ k) :
    dictGet k2 (dictInsert k v m) = dictGet k2 m := by
  have hne : ¬ k = k2 := fun hh => h hh.symm
  induction m with
  | nil => simp [dictGet, dictInsert, hne]
  | cons hd tl ih =>
    obtain ⟨k1, v1⟩ := hd
    by_cases h1 : k1 = k
    · subst h1
      simp [dictGet, dictInsert, hne]
    · simp only [dictInsert, if_neg h1]
      by_cases h2 : k1 = k2
      · simp [dictGet, h2]
      · simp [dictGet, h2, ih]

/-- One timestamped segment entry, as the providers put into
`TranscriptionResult.segments` (a dict with keys start/end/text/confidence).
The `end` key is called `stop` because `end` is reserved in Lean. -/
structure SegmentEntry where
  start : Rat
  stop : Rat
  text : String
  confidence : Rat
deriving DecidableEq

/-- core/interfaces.py: dataclass TranscriptionResult. -/
structure TranscriptionResult where
  text : String
  confidence : Rat
  processing_time : Rat
  model_used : String
  language : String
  segments : Option (List SegmentEntry) := none
  error_message : Option String := none
deriving DecidableEq

/-- Decidable replacement for Except.isOk. -/
def exceptOk : Except ε α → Bool
  | .ok _ => true
  | .error _ => false

/-- core/utils.py get_file_hash: opens the file (raising if it does not
exist or cannot be read) and returns the MD5 hex digest of its full byte
content. The file system is `fs : path → Option bytes` and the digest
function `md5` is an explicit parameter; what matters to every claim is
only that the key is a function of the bytes alone. -/
def get_file_hash (md5 : List Nat → String) (fs : String → Option (List Nat))
    (file_path : String) : Except String String :=
  match fs file_path with
  | none => Except.error ("FileNotFoundError: No such file or directory: " ++ file_path)
  | some bytes => Except.ok (md5 bytes)

/-- The mutable state every concrete provider keeps that the claims touch:
`initialization_complete` and the `transcription_cache` dict keyed by file
content hash. (Model/pipeline handles are abstracted into behaviour
parameters of the transcribe functions.) -/
structure ProviderState where
  initialization_complete : Bool
  transcription_cache : List (String × TranscriptionResult)
deriving DecidableEq

/-- GeminiProvider.initialize as transcribe sees it: a no-op when already
complete, otherwise a total Bool outcome — the api-key check returns false
without raising and the genai configuration sits inside try/except, so this
initialize never raises. `loadOk` abstracts that outcome. -/
def init_step (loadOk : Bool) (st : ProviderState) : ProviderState :=
  if st.initialization_complete then st else { st with initialization_complete := loadOk }

/-- DistilWhisperProvider/FasterWhisperProvider initialize as transcribe
sees it: a no-op when already complete; otherwise `self.cache_dir.mkdir`
runs OUTSIDE the try block, so its failure (`mkdirOk = false`) raises out
of initialize — and out of transcribe, whose call of initialize is also
outside its try; only then does the model load inside try set the flag to
its outcome `loadOk`. -/
def init_step_mkdir (mkdirOk loadOk : Bool) (st : ProviderState) : Except String ProviderState :=
  if st.initialization_complete then .ok st
  else if mkdirOk = false then .error "OSError: could not create cache_dir"
  else .ok { st with initialization_complete := loadOk }

-- ===== DistilWhisperProvider (providers/distil_whisper_provider.py) =====

/-- One chunk of the transformers pipeline output: optional confidence,
optional (start, end) timestamp whose components may be None, and text. -/
structure Chunk where
  confidence : Option Rat
  timestamp : Option (Option Rat × Option Rat)
  text : String
deriving DecidableEq

/-- Outcome of one call of the transformers ASR pipeline on a path:
it raised, returned something without a "text" key (falsy / malformed),
or returned a text plus chunks. -/
inductive PipeOut where
  | raise (msg : String)
  | invalid
  | ret (text : String) (chunks : List Chunk)

/-- DistilWhisperProvider._calculate_confidence. -/
def calculate_confidence (chunks : List Chunk) : Rat :=
  if chunks = [] then 87/100
  else
    let confs := chunks.map (fun c => c.confidence.getD (85/100))
    confs.sum / confs.length

/-- DistilWhisperProvider._extract_segments: chunks carrying a timestamp
become segment entries (None endpoints coerced to 0.0, which also fixes
falsy 0.0 to itself); None when no segment was produced. -/
def extract_segments (chunks : List Chunk) : Option (List SegmentEntry) :=
  let segs := chunks.filterMap (fun c =>
    c.timestamp.map (fun ts =>
      SegmentEntry.mk (ts.1.getD 0) (ts.2.getD 0) c.text (c.confidence.getD (85/100))))
  if segs = [] then none else some segs

/-- Error result built in DistilWhisperProvider.transcribe's except branch. -/
def dwFail (audio_path : String) (elapsed : Rat) (msg : String) : TranscriptionResult :=
  { text := "", confidence := 0, processing_time := elapsed, model_used := "distil-whisper-pt",
    language := "pt-BR", segments := none,
    error_message := some ("distil-whisper-pt transcription failed for " ++ audio_path ++ ": " ++ msg) }

/-- DistilWhisperProvider.transcribe after the lazy-initialize step.
The third component of the ok-tuple records whether the underlying pipeline
was invoked. Note that get_file_hash is called OUTSIDE the try block, so
its exception propagates (Except.error). -/
def dw_transcribe_body (pipe : String → PipeOut) (md5 : List Nat → String)
    (fs : String → Option (List Nat)) (st1 : ProviderState) (audio_path : String)
    (elapsed : Rat) : Except String (TranscriptionResult × ProviderState × Bool) :=
  if st1.initialization_complete = false then
    .ok ({ text := "", confidence := 0, processing_time := 0, model_used := "distil-whisper-pt",
           language := "pt-BR", segments := none,
           error_message := some "Model initialization failed or not complete" }, st1, false)
  else
    match get_file_hash md5 fs audio_path with
    | .error e => .error e
    | .ok file_hash =>
      match dictGet file_hash st1.transcription_cache with
      | some cached => .ok (cached, st1, false)
      | none =>
        match pipe audio_path with
        | .raise msg => .ok (dwFail audio_path elapsed msg, st1, true)
        | .invalid =>
          .ok (dwFail audio_path elapsed "Invalid transcription result from distil-whisper-pt pipeline", st1, true)
        | .ret text chunks =>
          if pyStrip text = "" then
            .ok (dwFail audio_path elapsed "Empty transcription result from distil-whisper-pt", st1, true)
          else
            let result : TranscriptionResult :=
              { text := pyStrip text, confidence := calculate_confidence chunks,
                processing_time := elapsed, model_used := "distil-whisper-pt",
                language := "pt-BR", segments := extract_segments chunks, error_message := none }
            .ok (result,
                 { st1 with transcription_cache := dictInsert file_hash result st1.transcription_cache },
                 true)

/-- DistilWhisperProvider.transcribe (lazy initialize — whose mkdir may
raise — then body). The source's language parameter is omitted: the
provider ignores it, forcing generate_kwargs language "portuguese" and
reporting "pt-BR". -/
def dw_transcribe (mkdirOk loadOk : Bool) (pipe : String → PipeOut) (md5 : List Nat → String)
    (fs : String → Option (List Nat)) (st : ProviderState) (audio_path : String)
    (elapsed : Rat) : Except String (TranscriptionResult × ProviderState × Bool) :=
  match init_step_mkdir mkdirOk loadOk st with
  | .error e => .error e
  | .ok st1 => dw_transcribe_body pipe md5 fs st1 audio_path elapsed

-- ===== FasterWhisperProvider (providers/faster_whisper_provider.py) =====

/-- One segment from the faster_whisper engine. -/
structure FWSegment where
  start : Rat
  stop : Rat
  text : String
deriving DecidableEq

/-- The info object returned beside the segments. Empty-string language is
kept distinct from None because the source tests Python truthiness. -/
structure FWInfo where
  language : Option String
  language_probability : Option Rat
deriving DecidableEq

/-- Outcome of one faster_whisper model.transcribe call (plus the segment
generator consumption, which happens inside the same try block). -/
inductive FWOut where
  | raise (msg : String)
  | ret (segments : List FWSegment) (info : FWInfo)

/-- Python round(x, 2). (Python rounds half to even on floats; the tie
behaviour is not load-bearing for any claim.) -/
def round2 (q : Rat) : Rat := (round (q * 100) : Int) / 100

/-- FasterWhisperProvider.transcribe after the lazy-initialize step.
Engine text is the space-join of segment texts, stripped; confidence is
info.language_probability with default 0.8; get_file_hash is again outside
the try block. -/
def fw_transcribe_body (engine : String → FWOut) (md5 : List Nat → String)
    (fs : String → Option (List Nat)) (st1 : ProviderState) (audio_path language : String)
    (elapsed : Rat) : Except String (TranscriptionResult × ProviderState × Bool) :=
  if st1.initialization_complete = false then
    .ok ({ text := "", confidence := 0, processing_time := 0, model_used := "faster-whisper",
           language := language, segments := none,
           error_message := some "Model initialization failed or not complete" }, st1, false)
  else
    match get_file_hash md5 fs audio_path with
    | .error e => .error e
    | .ok file_hash =>
      match dictGet file_hash st1.transcription_cache with
      | some cached => .ok (cached, st1, false)
      | none =>
        match engine audio_path with
        | .raise msg =>
          .ok ({ text := "", confidence := 0, processing_time := elapsed,
                 model_used := "faster-whisper", language := language, segments := none,
                 error_message := some ("faster-whisper transcription failed for " ++ audio_path ++ ": " ++ msg) },
               st1, true)
        | .ret segs info =>
          let transcribed_text := pyStrip (String.intercalate " " (segs.map FWSegment.text))
          let confidence := info.language_probability.getD (8/10)
          let lang :=
            match info.language with
            | some l => if l = "" then language else l
            | none => language
          let segments_metadata := segs.map (fun sg =>
            SegmentEntry.mk (round2 sg.start) (round2 sg.stop) sg.text (8/10))
          let result : TranscriptionResult :=
            { text := transcribed_text, confidence := confidence, processing_time := elapsed,
              model_used := "faster-whisper", language := lang,
              segments := some segments_metadata, error_message := none }
          .ok (result,
               { st1 with transcription_cache := dictInsert file_hash result st1.transcription_cache },
               true)

/-- FasterWhisperProvider.transcribe (lazy initialize — whose mkdir may
raise — then body). -/
def fw_transcribe (mkdirOk loadOk : Bool) (engine : String → FWOut) (md5 : List Nat → String)
    (fs : String → Option (List Nat)) (st : ProviderState) (audio_path language : String)
    (elapsed : Rat) : Except String (TranscriptionResult × ProviderState × Bool) :=
  match init_step_mkdir mkdirOk loadOk st with
  | .error e => .error e
  | .ok st1 => fw_transcribe_body engine md5 fs st1 audio_path language elapsed

-- ===== GeminiProvider (providers/gemini_provider.py) =====

/-- Fate of one Gemini API attempt (upload, validation and generate_content
all live inside one try block): timed out, raised some exception, or
produced a response whose .text is `t` (empty string models a falsy
response / response.text, which the source turns into a ValueError). -/
inductive GMCall where
  | timeout
  | exn (msg : String)
  | resp (t : String)

/-- Substring test (Python `pat in s`) for nonempty patterns. -/
def str_contains (s pat : String) : Bool := (s.splitOn pat).length ≥ 2

/-- GeminiProvider._calculate_gemini_confidence. -/
def gemini_confidence (text : String) : Rat :=
  let base0 : Rat := 8/10
  let base1 := if str_contains text "[FALA]:" || str_contains text "[TEXTO]:"
                  || str_contains text "[DESCRIÇÃO VISUAL]:" then base0 + 1/10 else base0
  let base2 := if (pyStrip text).length < 50 then base1 - 2/10 else base1
  let lower := text.toLower
  let base3 := if str_contains lower "não foi possível" || str_contains lower "erro"
                  || str_contains lower "não detectado" then base2 - 4/10 else base2
  max (1/10) (min (95/100) base3)

/-- Python pathlib Path(p).suffix. -/
def path_suffix (p : String) : String :=
  let nm := (p.splitOn "/").getLastD ""
  match nm.splitOn "." with
  | [] => ""
  | [_] => ""
  | x :: rest => if x = "" && rest.length = 1 then "" else "." ++ rest.getLastD ""

/-- GeminiProvider._transcribe_audio_with_gemini / _transcribe_video_with_gemini:
both wrap the whole attempt in try/except (plus a TimeoutError arm) and so
always return a TranscriptionResult; `kind` is "audio" or "video". -/
def gemini_attempt (kind : String) (call : GMCall) (file_path language : String)
    (elapsed : Rat) : TranscriptionResult :=
  match call with
  | .resp t =>
    if t = "" then
      { text := "", confidence := 0, processing_time := elapsed,
        model_used := "gemini-hybrid-" ++ kind, language := language, segments := none,
        error_message := some ("Gemini " ++ kind ++ " transcription failed for " ++ file_path
          ++ ": No text response from Gemini API for " ++ kind ++ ".") }
    else
      { text := pyStrip t, confidence := gemini_confidence (pyStrip t), processing_time := elapsed,
        model_used := "gemini-hybrid-" ++ kind, language := language, segments := none,
        error_message := none }
  | .timeout =>
    { text := "", confidence := 0, processing_time := elapsed,
      model_used := "gemini-hybrid-" ++ kind, language := language, segments := none,
      error_message := some ("Gemini " ++ kind ++ " transcription timed out for " ++ file_path) }
  | .exn msg =>
    { text := "", confidence := 0, processing_time := elapsed,
      model_used := "gemini-hybrid-" ++ kind, language := language, segments := none,
      error_message := some ("Gemini " ++ kind ++ " transcription failed for " ++ file_path ++ ": " ++ msg) }

/-- The "Unsupported file type" error result of GeminiProvider.transcribe. -/
def gm_unsupported (file_path language : String) : TranscriptionResult :=
  { text := "", confidence := 0, processing_time := 0, model_used := "gemini-hybrid",
    language := language, segments := none,
    error_message := some ("Unsupported file type for Gemini transcription: " ++ path_suffix file_path) }

/-- The audio/video dispatch of GeminiProvider.transcribe on a cache miss:
the produced result together with whether the Gemini engine was invoked. -/
def gm_step (mimeOf : String → Option String) (audioCall videoCall : String → GMCall)
    (file_path language : String) (elapsed : Rat) : TranscriptionResult × Bool :=
  match mimeOf file_path with
  | some m =>
    if str_startsWith m "audio" then (gemini_attempt "audio" (audioCall file_path) file_path language elapsed, true)
    else if str_startsWith m "video" then (gemini_attempt "video" (videoCall file_path) file_path language elapsed, true)
    else (gm_unsupported file_path language, false)
  | none => (gm_unsupported file_path language, false)

/-- GeminiProvider.transcribe after the lazy-initialize step. mimeOf models
mimetypes.guess_type; only a successful (error-free) result is stored in the
cache. get_file_hash is outside any try block. -/
def gm_transcribe_body (mimeOf : String → Option String) (audioCall videoCall : String → GMCall)
    (md5 : List Nat → String) (fs : String → Option (List Nat)) (st1 : ProviderState)
    (file_path language : String) (elapsed : Rat) :
    Except String (TranscriptionResult × ProviderState × Bool) :=
  if st1.initialization_complete = false then
    .ok ({ text := "", confidence := 0, processing_time := 0, model_used := "gemini-hybrid",
           language := language, segments := none,
           error_message := some "GeminiProvider not initialized due to missing API key or error." }, st1, false)
  else
    match get_file_hash md5 fs file_path with
    | .error e => .error e
    | .ok file_hash =>
      match dictGet file_hash st1.transcription_cache with
      | some cached => .ok (cached, st1, false)
      | none =>
        let step := gm_step mimeOf audioCall videoCall file_path language elapsed
        if step.1.error_message = none then
          .ok (step.1,
               { st1 with transcription_cache := dictInsert file_hash step.1 st1.transcription_cache },
               step.2)
        else .ok (step.1, st1, step.2)

/-- GeminiProvider.transcribe (lazy initialize, then body). -/
def gm_transcribe (initOk : Bool) (mimeOf : String → Option String)
    (audioCall videoCall : String → GMCall) (md5 : List Nat → String)
    (fs : String → Option (List Nat)) (st : ProviderState) (file_path language : String)
    (elapsed : Rat) : Except String (TranscriptionResult × ProviderState × Bool) :=
  gm_transcribe_body mimeOf audioCall videoCall md5 fs (init_step initOk st) file_path language elapsed

-- ===== TranscriptionManager (core/manager.py) =====

/-- A registered provider instance as the manager sees it: whether it passes
the isinstance(ITranscriptionProvider) check, its Python type repr (for the
TypeError message), and its behaviour — the outcome of its n-th initialize
call and of its n-th transcribe call. A transcribe call that raises is
Except.error (manager.py has no try/except, so it would propagate). The
audio path and language are fixed for a request and folded into the
behaviour. -/
structure PRV where
  isITranscriptionProvider : Bool
  typeName : String
  initSeq : Nat → Bool
  transcribeSeq : Nat → Except String TranscriptionResult

/-- TranscriptionManager state: the `_providers` and `_initialized_providers`
dicts of the source, plus instrumentation needed to state the claims:
per-name counters of initialize/transcribe calls made on the current
instance (a fresh instance starts at 0), and each instance's
transcription_cache viewed through get_status / clear_cache. -/
structure MState where
  providers : List (String × PRV)
  initialized : List (String × Bool)
  initCount : List (String × Nat)
  transcribeCount : List (String × Nat)
  caches : List (String × List (String × TranscriptionResult))

/-- TranscriptionManager.register_provider: raises TypeError (before any
mutation) when the instance does not implement ITranscriptionProvider;
otherwise stores the instance and marks the name uninitialized. The counter
and cache entries are reset because the stored object is a fresh instance. -/
def register_provider (s : MState) (name : String) (inst : PRV) : Except String MState :=
  if inst.isITranscriptionProvider = false then
    .error ("Provider must implement ITranscriptionProvider interface. Got " ++ inst.typeName)
  else
    .ok { providers := dictInsert name inst s.providers,
          initialized := dictInsert name false s.initialized,
          initCount := dictInsert name 0 s.initCount,
          transcribeCount := dictInsert name 0 s.transcribeCount,
          caches := dictInsert name [] s.caches }

/-- Run register_provider, keeping the old state when it raises. -/
def tryRegister (s : MState) (name : String) (inst : PRV) : MState :=
  match register_provider s name inst with
  | .ok s2 => s2
  | .error _ => s

/-- TranscriptionManager._ensure_provider_initialized. -/
def ensure_provider_initialized (s : MState) (name : String) : Bool × MState :=
  match dictGet name s.providers with
  | none => (false, s)
  | some p =>
    if (dictGet name s.initialized).getD false then (true, s)
    else
      let k := (dictGet name s.initCount).getD 0
      let ok := p.initSeq k
      (ok, { s with initCount := dictInsert name (k + 1) s.initCount,
                    initialized := if ok then dictInsert name true s.initialized else s.initialized })

/-- The aggregate failure message of transcribe_audio. -/
def allFailedMsg : String :=
  "All configured transcription providers failed or returned low confidence."

/-- The synthetic exhaustion result of transcribe_audio. -/
def allFailedResult (language : String) : TranscriptionResult :=
  { text := "", confidence := 0, processing_time := 0, model_used := "None",
    language := language, segments := none, error_message := some allFailedMsg }

/-- Record an invoked-but-rejected provider name in front of the walk's
invocation trace (the walk outcome itself is unchanged). -/
def prependInvoked (name : String) :
    Except String (TranscriptionResult × List String × MState) →
    Except String (TranscriptionResult × List String × MState)
  | .error e => .error e
  | .ok (res, tr, s3) => .ok (res, name :: tr, s3)

/-- Instrumentation: one transcribe call was made on `name`'s instance. -/
def bumpTranscribeCount (s : MState) (name : String) : MState :=
  { s with transcribeCount :=
      dictInsert name ((dictGet name s.transcribeCount).getD 0 + 1) s.transcribeCount }

/-- The provider-chain walk inside TranscriptionManager.transcribe_audio.
The List String component of the ok-tuple is instrumentation recording, in
order, the names whose transcribe was invoked during the walk. -/
def transcribe_loop (threshold : Rat) (language : String) (s : MState) :
    List String → Except String (TranscriptionResult × List String × MState)
  | [] => .ok (allFailedResult language, [], s)
  | name :: rest =>
    match dictGet name s.providers with
    | none => transcribe_loop threshold language s rest
    | some p =>
      match ensure_provider_initialized s name with
      | (false, s1) => transcribe_loop threshold language s1 rest
      | (true, s1) =>
        match p.transcribeSeq ((dictGet name s1.transcribeCount).getD 0) with
        | .error e => .error e
        | .ok result =>
          if result.error_message.isSome then
            prependInvoked name (transcribe_loop threshold language (bumpTranscribeCount s1 name) rest)
          else if result.confidence < threshold then
            prependInvoked name (transcribe_loop threshold language (bumpTranscribeCount s1 name) rest)
          else .ok (result, [name], bumpTranscribeCount s1 name)

/-- TranscriptionManager.transcribe_audio: walks
[settings.PRIMARY_PROVIDER] + settings.FALLBACK_PROVIDERS with the
configured confidence threshold (settings are read per call and passed here
as arguments; the audio path is folded into each provider's behaviour). -/
def transcribe_audio (threshold : Rat) (primary : String) (fallbacks : List String)
    (s : MState) (language : String) :
    Except String (TranscriptionResult × List String × MState) :=
  transcribe_loop threshold language s (primary :: fallbacks)

/-- The per-provider clear_cache calls performed by clear_all_caches. -/
def clear_each : List (String × PRV) → MState → MState
  | [], s => s
  | (nm, _) :: rest, s => clear_each rest { s with caches := dictInsert nm [] s.caches }

/-- TranscriptionManager.clear_all_caches: calls clear_cache on every
registered provider. The List String component records, in registry order,
the names whose clear_cache was invoked. -/
def clear_all_caches (s : MState) : MState × List String :=
  (clear_each s.providers s, s.providers.map Prod.fst)

/-- The "cache_size" entry of get_provider_status(name): None when the name
is unregistered, else the provider's len(transcription_cache) (all three
providers report exactly that). -/
def get_status_cache_size (s : MState) (name : String) : Option Nat :=
  match dictGet name s.providers with
  | none => none
  | some _ => some ((dictGet name s.caches).getD []).length

-- ===== Spec-side selection function (for the refinement claims C1/C2) =====

/-- Written from the spec's words (§4.3 / P1), not from the source: the
first candidate in the chain that is registered, whose initialize succeeds,
and whose transcribe result has no error and confidence ≥ threshold,
together with its position. Candidates that are unregistered, fail
initialization, error, or fall below threshold are skipped. The spec's
outcome vocabulary has no raising providers; a raising entry is treated as
skipped, and the theorems assume result-returning providers. -/
def specFirstAcceptable (threshold : Rat) (reg : String → Option PRV) :
    List String → Option (Nat × TranscriptionResult)
  | [] => none
  | name :: rest =>
    let skip := (specFirstAcceptable threshold reg rest).map (fun ir => (ir.1 + 1, ir.2))
    match reg name with
    | none => skip
    | some p =>
      if p.initSeq 0 = true then
        match p.transcribeSeq 0 with
        | .ok r =>
          if r.error_message = none ∧ threshold ≤ r.confidence then some (0, r) else skip
        | .error _ => skip
      else skip

/-- Hypothesis for C1/C2: each registered provider has one fixed outcome
for the request — its initialize and transcribe behaviour does not depend
on the call index, and its transcribe returns (does not raise). -/
def deterministicProviders (s : MState) : Prop :=
  ∀ name p, dictGet name s.providers = some p →
    (∀ k, p.initSeq k = p.initSeq 0) ∧ (∀ k, p.transcribeSeq k = p.transcribeSeq 0) ∧
    exceptOk (p.transcribeSeq 0) = true

/-- Hypothesis for C1/C2: the initialized flag is only set for providers
whose initialize succeeds (true of every state the manager itself builds,
since the flag is set exactly on a successful initialize). -/
def initFlagsSound (s : MState) : Prop :=
  ∀ name p, dictGet name s.providers = some p →
    (dictGet name s.initialized).getD false = true → p.initSeq 0 = true

-- ===== Helper lemmas =====

theorem dictGet_isSome_mem (k : String) (m : List (String × α))
    (h : (dictGet k m).isSome = true) : k ∈ m.map Prod.fst := by
  induction m with
  | nil => simp [dictGet] at h
  | cons hd tl ih =>
    obtain ⟨k1, v⟩ := hd
    by_cases h1 : k1 = k
    · subst h1; simp
    · simp only [dictGet, if_neg h1] at h
      simp [ih h]

theorem clear_each_providers (l : List (String × PRV)) :
    ∀ s : MState, (clear_each l s).providers = s.providers := by
  induction l with
  | nil => intro s; rfl
  | cons hd tl ih => intro s; obtain ⟨nm, p⟩ := hd; simp [clear_each, ih]

theorem clear_each_get (l : List (String × PRV)) :
    ∀ (s : MState) (name : String),
      (name ∈ l.map Prod.fst ∨ dictGet name s.caches = some []) →
      dictGet name (clear_each l s).caches = some [] := by
  induction l with
  | nil =>
    intro s name h
    rcases h with h | h
    · simp at h
    · exact h
  | cons hd tl ih =>
    intro s name h
    obtain ⟨nm, p⟩ := hd
    simp only [clear_each]
    apply ih
    by_cases hn : name = nm
    · subst hn; right; exact dictGet_insert_self _ _ _
    · rcases h with h | h
      · simp only [List.map_cons, List.mem_cons] at h
        rcases h with h | h
        · exact absurd h hn
        · left; exact h
      · right; rw [dictGet_insert_ne _ _ _ _ hn]; exact h

-- ===== Witness fixtures =====

/-- A successful, high-confidence result used by concrete witnesses. -/
def resOkHigh : TranscriptionResult :=
  { text := "ola mundo", confidence := 9/10, processing_time := 1, model_used := "B", language := "pt" }

/-- An error result used by concrete witnesses. -/
def resErr : TranscriptionResult :=
  { text := "", confidence := 0, processing_time := 1, model_used := "A", language := "pt",
    error_message := some "boom" }

/-- Provider that always initializes and returns resOkHigh. -/
def prvGood : PRV :=
  { isITranscriptionProvider := true, typeName := "GoodProvider",
    initSeq := fun _ => true, transcribeSeq := fun _ => .ok resOkHigh }

/-- Provider that always initializes and returns an error result. -/
def prvErr : PRV :=
  { isITranscriptionProvider := true, typeName := "ErrProvider",
    initSeq := fun _ => true, transcribeSeq := fun _ => .ok resErr }

/-- Provider whose initialize fails on the first call and succeeds afterwards. -/
def prvFlaky : PRV :=
  { isITranscriptionProvider := true, typeName := "FlakyProvider",
    initSeq := fun n => decide (1 ≤ n), transcribeSeq := fun _ => .ok resOkHigh }

/-- An object that does not implement ITranscriptionProvider. -/
def notAProvider : PRV :=
  { isITranscriptionProvider := false, typeName := "<class 'str'>",
    initSeq := fun _ => false, transcribeSeq := fun _ => .error "not a provider" }

/-- Manager state with an erroring provider A and a good provider B. -/
def mgrW : MState := ⟨[("A", prvErr), ("B", prvGood)], [], [], [], []⟩

/-- Manager state with only the flaky provider F. -/
def mgrFlaky : MState := ⟨[("F", prvFlaky)], [], [], [], []⟩

/-- Manager state holding one provider with a nonempty cache. -/
def mgrC : MState := ⟨[("A", prvGood)], [("A", true)], [], [], [("A", [("h", resOkHigh)])]⟩

-- ===== C10 =====

/-- C10: register_provider raises a TypeError (a fault visible to the
caller, not an error-valued result) whenever the instance does not
implement ITranscriptionProvider, and the registry is left unchanged. -/
theorem c10_register_non_provider_raises (s : MState) (name : String) (inst : PRV)
    (h : inst.isITranscriptionProvider = false) :
    register_provider s name inst =
      .error ("Provider must implement ITranscriptionProvider interface. Got " ++ inst.typeName) ∧
    tryRegister s name inst = s := by
  constructor
  · simp [register_provider, h]
  · simp [tryRegister, register_provider, h]

/-- Witness for C10 at a concrete bad instance. -/
theorem c10_register_non_provider_raises_witness :
    register_provider mgrW "X" notAProvider =
      .error ("Provider must implement ITranscriptionProvider interface. Got " ++ notAProvider.typeName) ∧
    tryRegister mgrW "X" notAProvider = mgrW :=
  c10_register_non_provider_raises mgrW "X" notAProvider rfl

-- ===== C7 =====

/-- C7: re-registering a name already present replaces the stored instance
and resets the initialized flag to false, without error, so that the next
ensure_provider_initialized call re-runs initialization against the new
instance (its first initialize outcome decides the result). -/
theorem c7_hot_swap (s : MState) (name : String) (inst : PRV)
    (himpl : inst.isITranscriptionProvider = true)
    (hreg : (dictGet name s.providers).isSome = true) :
    ∃ s2, register_provider s name inst = .ok s2 ∧
      dictGet name s2.providers = some inst ∧
      (dictGet name s2.initialized).getD false = false ∧
      (ensure_provider_initialized s2 name).1 = inst.initSeq 0 := by
  refine ⟨{ providers := dictInsert name inst s.providers,
            initialized := dictInsert name false s.initialized,
            initCount := dictInsert name 0 s.initCount,
            transcribeCount := dictInsert name 0 s.transcribeCount,
            caches := dictInsert name [] s.caches }, ?_, ?_, ?_, ?_⟩
  · simp [register_provider, himpl]
  · exact dictGet_insert_self _ _ _
  · rw [dictGet_insert_self]; rfl
  · have hp := dictGet_insert_self name inst s.providers
    have hf := dictGet_insert_self name false s.initialized
    have hc := dictGet_insert_self name 0 s.initCount
    simp [ensure_provider_initialized, hp, hf, hc]

/-- Witness for C7: swap in the good provider over the registered name A. -/
theorem c7_hot_swap_witness :
    ∃ s2, register_provider mgrW "A" prvGood = .ok s2 ∧
      dictGet "A" s2.providers = some prvGood ∧
      (dictGet "A" s2.initialized).getD false = false ∧
      (ensure_provider_initialized s2 "A").1 = prvGood.initSeq 0 :=
  c7_hot_swap mgrW "A" prvGood rfl (by decide)

-- ===== C8 =====

/-- C8: after clear_all_caches, every registered provider's status reports
cache_size 0, regardless of prior initialization state, and clear_cache is
invoked on every registered provider unconditionally (in registry order). -/
theorem c8_clear_all_caches_total :
    (∀ (s : MState) (name : String), (dictGet name s.providers).isSome = true →
      get_status_cache_size (clear_all_caches s).1 name = some 0) ∧
    (∀ s : MState, (clear_all_caches s).2 = s.providers.map Prod.fst) := by
  constructor
  · intro s name h
    have hm : name ∈ s.providers.map Prod.fst := dictGet_isSome_mem _ _ h
    have hc : dictGet name (clear_each s.providers s).caches = some [] :=
      clear_each_get _ _ _ (Or.inl hm)
    obtain ⟨p, hp⟩ := Option.isSome_iff_exists.mp h
    have hpr : (clear_each s.providers s).providers = s.providers := clear_each_providers _ _
    simp [clear_all_caches, get_status_cache_size, hpr, hp, hc]
  · intro s; rfl

/-- Witness for C8 at a state whose provider was initialized and has a
nonempty cache. -/
theorem c8_clear_all_caches_total_witness :
    get_status_cache_size (clear_all_caches mgrC).1 "A" = some 0 ∧
    (clear_all_caches mgrC).2 = ["A"] := by
  refine ⟨c8_clear_all_caches_total.1 mgrC "A" (by decide), ?_⟩
  have h := c8_clear_all_caches_total.2 mgrC
  simpa using h

-- ===== C5 =====

/-- C5: ensure_provider_initialized returns false without touching the
provider when the name is unregistered; returns true without calling
initialize again when the entry is already marked initialized; otherwise
calls initialize exactly once and marks the entry initialized exactly when
it returned true (leaving it unmarked on false); and consequently a
provider whose initialize fails once and succeeds on the retry is used by a
subsequent transcribe_audio call with no explicit reset. -/
theorem c5_lazy_initialization :
    (∀ (s : MState) (name : String), dictGet name s.providers = none →
      ensure_provider_initialized s name = (false, s)) ∧
    (∀ (s : MState) (name : String) (p : PRV), dictGet name s.providers = some p →
      (dictGet name s.initialized).getD false = true →
      ensure_provider_initialized s name = (true, s)) ∧
    (∀ (s : MState) (name : String) (p : PRV), dictGet name s.providers = some p →
      (dictGet name s.initialized).getD false = false →
      (ensure_provider_initialized s name).1 = p.initSeq ((dictGet name s.initCount).getD 0) ∧
      (dictGet name (ensure_provider_initialized s name).2.initCount).getD 0 =
        (dictGet name s.initCount).getD 0 + 1 ∧
      (dictGet name (ensure_provider_initialized s name).2.initialized).getD false =
        p.initSeq ((dictGet name s.initCount).getD 0)) ∧
    (∀ (s : MState) (name : String) (p : PRV) (r : TranscriptionResult)
        (threshold : Rat) (language : String),
      dictGet name s.providers = some p →
      (dictGet name s.initialized).getD false = false →
      (dictGet name s.initCount).getD 0 = 0 →
      (dictGet name s.transcribeCount).getD 0 = 0 →
      p.initSeq 0 = false → p.initSeq 1 = true →
      p.transcribeSeq 0 = .ok r → r.error_message = none → threshold ≤ r.confidence →
      ∃ s1, transcribe_audio threshold name [] s language = .ok (allFailedResult language, [], s1) ∧
        ∃ s2, transcribe_audio threshold name [] s1 language = .ok (r, [name], s2)) := by
  refine ⟨?_, ?_, ?_, ?_⟩
  · intro s name h
    simp [ensure_provider_initialized, h]
  · intro s name p hp hf
    simp [ensure_provider_initialized, hp, hf]
  · intro s name p hp hf
    refine ⟨?_, ?_, ?_⟩
    · simp [ensure_provider_initialized, hp, hf]
    · simp only [ensure_provider_initialized, hp, hf]
      simp [dictGet_insert_self]
    · simp only [ensure_provider_initialized, hp, hf]
      cases hinit : p.initSeq ((dictGet name s.initCount).getD 0) with
      | true => simp [hinit, dictGet_insert_self]
      | false => simp [hinit, hf]
  · intro s name p r threshold language hp hf hic htc h0 h1 hres herr hconf
    have hwalk1 : transcribe_audio threshold name [] s language =
        .ok (allFailedResult language, [],
          { s with initCount := dictInsert name 1 s.initCount }) := by
      simp [transcribe_audio, transcribe_loop, ensure_provider_initialized, hp, hf, hic, h0]
    refine ⟨_, hwalk1, ?_⟩
    have hp1 : dictGet name ({ s with initCount := dictInsert name 1 s.initCount} : MState).providers = some p := hp
    have hf1 : (dictGet name ({ s with initCount := dictInsert name 1 s.initCount} : MState).initialized).getD false = false := hf
    have hic1 : (dictGet name ({ s with initCount := dictInsert name 1 s.initCount} : MState).initCount).getD 0 = 1 := by
      simp [dictGet_insert_self]
    have herr2 : r.error_message.isSome = false := by simp [herr]
    have hconf2 : ¬ (r.confidence < threshold) := not_lt.mpr hconf
    refine ⟨⟨s.providers, dictInsert name true s.initialized,
        dictInsert name 2 (dictInsert name 1 s.initCount),
        dictInsert name 1 s.transcribeCount, s.caches⟩, ?_⟩
    simp [transcribe_audio, transcribe_loop, ensure_provider_initialized, hp1, hf1, hic1, h1,
      htc, hres, herr2, hconf2, bumpTranscribeCount]

/-- Witness for C5: each conjunct at concrete inputs; the retry scenario is
run on the flaky provider F. -/
theorem c5_lazy_initialization_witness :
    ensure_provider_initialized mgrW "Z" = (false, mgrW) ∧
    ensure_provider_initialized mgrC "A" = (true, mgrC) ∧
    (ensure_provider_initialized mgrFlaky "F").1 = prvFlaky.initSeq 0 ∧
    (∃ s1, transcribe_audio (6/10) "F" [] mgrFlaky "pt" = .ok (allFailedResult "pt", [], s1) ∧
      ∃ s2, transcribe_audio (6/10) "F" [] s1 "pt" = .ok (resOkHigh, ["F"], s2)) := by
  refine ⟨?_, ?_, ?_, ?_⟩
  · exact c5_lazy_initialization.1 mgrW "Z" rfl
  · exact c5_lazy_initialization.2.1 mgrC "A" prvGood rfl rfl
  · exact (c5_lazy_initialization.2.2.1 mgrFlaky "F" prvFlaky rfl rfl).1
  · exact c5_lazy_initialization.2.2.2 mgrFlaky "F" prvFlaky resOkHigh (6/10) "pt"
      rfl rfl rfl rfl rfl rfl rfl rfl (by norm_num [resOkHigh])

-- ===== Provider-level helper lemmas =====

theorem init_step_of_complete (l : Bool) (st : ProviderState)
    (h : st.initialization_complete = true) : init_step l st = st := by
  simp [init_step, h]

theorem init_step_cache (l : Bool) (st : ProviderState) :
    (init_step l st).transcription_cache = st.transcription_cache := by
  by_cases h : st.initialization_complete <;> simp [init_step, h]

theorem init_step_mkdir_of_complete (mk l : Bool) (st : ProviderState)
    (h : st.initialization_complete = true) : init_step_mkdir mk l st = .ok st := by
  simp [init_step_mkdir, h]

theorem init_step_mkdir_cache (mk l : Bool) (st st0 : ProviderState)
    (h : init_step_mkdir mk l st = .ok st0) :
    st0.transcription_cache = st.transcription_cache := by
  unfold init_step_mkdir at h
  by_cases hc : st.initialization_complete = true
  · rw [if_pos hc] at h
    injection h with h2
    rw [← h2]
  · rw [if_neg hc] at h
    by_cases hm : mk = false
    · rw [if_pos hm] at h
      exact absurd h (by simp)
    · rw [if_neg hm] at h
      injection h with h2
      rw [← h2]

theorem init_step_mkdir_ok (mk l : Bool) (st : ProviderState)
    (h : st.initialization_complete = true ∨ mk = true) :
    ∃ st0, init_step_mkdir mk l st = .ok st0 := by
  unfold init_step_mkdir
  by_cases hc : st.initialization_complete = true
  · rw [if_pos hc]
    exact ⟨st, rfl⟩
  · rcases h with h | h
    · exact absurd h hc
    · rw [if_neg hc]
      have hm : ¬ (mk = false) := by
        rw [h]
        simp
      rw [if_neg hm]
      exact ⟨_, rfl⟩

/-- A no-error result of dw_transcribe means initialization completed and the
result sits in the cache of the returned state under the content hash. -/
theorem dw_success_cached (mkdirOk loadOk : Bool) (pipe : String → PipeOut) (md5 : List Nat → String)
    (fs : String → Option (List Nat)) (st : ProviderState) (path : String) (e : Rat)
    (b : List Nat) (r : TranscriptionResult) (st1 : ProviderState) (inv : Bool)
    (hfs : fs path = some b)
    (hcall : dw_transcribe mkdirOk loadOk pipe md5 fs st path e = .ok (r, st1, inv))
    (herr : r.error_message = none) :
    st1.initialization_complete = true ∧
    dictGet (md5 b) st1.transcription_cache = some r := by
  simp only [dw_transcribe] at hcall
  cases hI : init_step_mkdir mkdirOk loadOk st with
  | error er =>
    rw [hI] at hcall
    exact absurd hcall (by simp)
  | ok st0 =>
    rw [hI] at hcall
    simp only [dw_transcribe_body, get_file_hash, hfs] at hcall
    by_cases hc : st0.initialization_complete = false
    · simp only [if_pos hc, Except.ok.injEq, Prod.mk.injEq] at hcall
      rw [← hcall.1] at herr
      simp at herr
    · simp only [if_neg hc] at hcall
      cases hdg : dictGet (md5 b) st0.transcription_cache with
      | some cached =>
        simp only [hdg, Except.ok.injEq, Prod.mk.injEq] at hcall
        obtain ⟨hr, hst, hinv⟩ := hcall
        rw [← hst, ← hr]
        exact ⟨by simpa using hc, hdg⟩
      | none =>
        simp only [hdg] at hcall
        cases hp : pipe path with
        | raise msg =>
          simp only [hp, Except.ok.injEq, Prod.mk.injEq] at hcall
          rw [← hcall.1] at herr
          simp [dwFail] at herr
        | invalid =>
          simp only [hp, Except.ok.injEq, Prod.mk.injEq] at hcall
          rw [← hcall.1] at herr
          simp [dwFail] at herr
        | ret text chunks =>
          by_cases ht : pyStrip text = ""
          · simp only [hp, if_pos ht, Except.ok.injEq, Prod.mk.injEq] at hcall
            rw [← hcall.1] at herr
            simp [dwFail] at herr
          · simp only [hp, if_neg ht, Except.ok.injEq, Prod.mk.injEq] at hcall
            obtain ⟨hr, hst, hinv⟩ := hcall
            rw [← hst, ← hr]
            exact ⟨by simpa using hc, dictGet_insert_self _ _ _⟩

/-- A no-error result of fw_transcribe means initialization completed and the
result sits in the cache of the returned state under the content hash. -/
theorem fw_success_cached (mkdirOk loadOk : Bool) (engine : String → FWOut) (md5 : List Nat → String)
    (fs : String → Option (List Nat)) (st : ProviderState) (path language : String) (e : Rat)
    (b : List Nat) (r : TranscriptionResult) (st1 : ProviderState) (inv : Bool)
    (hfs : fs path = some b)
    (hcall : fw_transcribe mkdirOk loadOk engine md5 fs st path language e = .ok (r, st1, inv))
    (herr : r.error_message = none) :
    st1.initialization_complete = true ∧
    dictGet (md5 b) st1.transcription_cache = some r := by
  simp only [fw_transcribe] at hcall
  cases hI : init_step_mkdir mkdirOk loadOk st with
  | error er =>
    rw [hI] at hcall
    exact absurd hcall (by simp)
  | ok st0 =>
    rw [hI] at hcall
    simp only [fw_transcribe_body, get_file_hash, hfs] at hcall
    by_cases hc : st0.initialization_complete = false
    · simp only [if_pos hc, Except.ok.injEq, Prod.mk.injEq] at hcall
      rw [← hcall.1] at herr
      simp at herr
    · simp only [if_neg hc] at hcall
      cases hdg : dictGet (md5 b) st0.transcription_cache with
      | some cached =>
        simp only [hdg, Except.ok.injEq, Prod.mk.injEq] at hcall
        obtain ⟨hr, hst, hinv⟩ := hcall
        rw [← hst, ← hr]
        exact ⟨by simpa using hc, hdg⟩
      | none =>
        simp only [hdg] at hcall
        cases hp : engine path with
        | raise msg =>
          simp only [hp, Except.ok.injEq, Prod.mk.injEq] at hcall
          rw [← hcall.1] at herr
          simp at herr
        | ret segs info =>
          simp only [hp, Except.ok.injEq, Prod.mk.injEq] at hcall
          obtain ⟨hr, hst, hinv⟩ := hcall
          rw [← hst, ← hr]
          exact ⟨by simpa using hc, dictGet_insert_self _ _ _⟩

/-- A no-error result of gm_transcribe means initialization completed and the
result sits in the cache of the returned state under the content hash. -/
theorem gm_success_cached (initOk : Bool) (mimeOf : String → Option String)
    (audioCall videoCall : String → GMCall) (md5 : List Nat → String)
    (fs : String → Option (List Nat)) (st : ProviderState) (path language : String) (e : Rat)
    (b : List Nat) (r : TranscriptionResult) (st1 : ProviderState) (inv : Bool)
    (hfs : fs path = some b)
    (hcall : gm_transcribe initOk mimeOf audioCall videoCall md5 fs st path language e = .ok (r, st1, inv))
    (herr : r.error_message = none) :
    st1.initialization_complete = true ∧
    dictGet (md5 b) st1.transcription_cache = some r := by
  simp only [gm_transcribe, gm_transcribe_body, get_file_hash, hfs] at hcall
  by_cases hc : (init_step initOk st).initialization_complete = false
  · simp only [if_pos hc, Except.ok.injEq, Prod.mk.injEq] at hcall
    rw [← hcall.1] at herr
    simp at herr
  · simp only [if_neg hc] at hcall
    cases hdg : dictGet (md5 b) (init_step initOk st).transcription_cache with
    | some cached =>
      simp only [hdg, Except.ok.injEq, Prod.mk.injEq] at hcall
      obtain ⟨hr, hst, hinv⟩ := hcall
      rw [← hst, ← hr]
      exact ⟨by simpa using hc, hdg⟩
    | none =>
      simp only [hdg] at hcall
      by_cases hem : (gm_step mimeOf audioCall videoCall path language e).1.error_message = none
      · simp only [if_pos hem, Except.ok.injEq, Prod.mk.injEq] at hcall
        obtain ⟨hr, hst, hinv⟩ := hcall
        rw [← hst, ← hr]
        exact ⟨by simpa using hc, dictGet_insert_self _ _ _⟩
      · simp only [if_neg hem, Except.ok.injEq, Prod.mk.injEq] at hcall
        obtain ⟨hr, hst, hinv⟩ := hcall
        rw [← hr] at herr
        exact absurd herr hem

-- ===== C3 =====

/-- C3 counterexample: transcribe raises in two concrete ways. First, with
an initialized DistilWhisper provider and a file path that does not exist,
it propagates the FileNotFoundError from get_file_hash. Second, with an
uninitialized provider, a perfectly readable file and a failing
cache_dir.mkdir, it propagates the OSError from initialize — both instead
of returning an error-valued TranscriptionResult. -/
theorem c3_counterexample :
    dw_transcribe true true (fun _ => PipeOut.ret "ola" []) (fun bs => "md5-" ++ toString bs.length)
      (fun _ => none) ⟨true, []⟩ "missing.mp3" 1 =
    Except.error "FileNotFoundError: No such file or directory: missing.mp3" ∧
    dw_transcribe false true (fun _ => PipeOut.ret "ola" []) (fun bs => "md5-" ++ toString bs.length)
      (fun _ => some [1, 2, 3]) ⟨false, []⟩ "a.mp3" 1 =
    Except.error "OSError: could not create cache_dir" := by
  exact ⟨rfl, rfl⟩

/-- C3 (amended): provider.transcribe never raises provided the input file
can be opened and hashed AND, for the two local Whisper providers, the
provider is either already initialized or its cache-directory mkdir
succeeds; every failure mode inside the try blocks is captured and returned
as a Result with the error field set. A file that cannot be read makes
transcribe raise from the hashing step, and a failing cache_dir.mkdir on an
uninitialized DistilWhisper/FasterWhisper provider raises from the
initialize step — both sit outside every try block. -/
theorem c3_amended_no_raise_when_hashable :
    (∀ (mkdirOk loadOk : Bool) (pipe : String → PipeOut) (md5 : List Nat → String)
        (fs : String → Option (List Nat)) (st : ProviderState) (path : String) (e : Rat)
        (b : List Nat), fs path = some b →
      st.initialization_complete = true ∨ mkdirOk = true →
      exceptOk (dw_transcribe mkdirOk loadOk pipe md5 fs st path e) = true) ∧
    (∀ (mkdirOk loadOk : Bool) (engine : String → FWOut) (md5 : List Nat → String)
        (fs : String → Option (List Nat)) (st : ProviderState) (path language : String) (e : Rat)
        (b : List Nat), fs path = some b →
      st.initialization_complete = true ∨ mkdirOk = true →
      exceptOk (fw_transcribe mkdirOk loadOk engine md5 fs st path language e) = true) ∧
    (∀ (initOk : Bool) (mimeOf : String → Option String) (audioCall videoCall : String → GMCall)
        (md5 : List Nat → String) (fs : String → Option (List Nat)) (st : ProviderState)
        (path language : String) (e : Rat) (b : List Nat), fs path = some b →
      exceptOk (gm_transcribe initOk mimeOf audioCall videoCall md5 fs st path language e) = true) := by
  refine ⟨?_, ?_, ?_⟩
  · intro mkdirOk loadOk pipe md5 fs st path e b hfs hinit
    obtain ⟨st0, hI⟩ := init_step_mkdir_ok mkdirOk loadOk st hinit
    simp only [dw_transcribe, hI, dw_transcribe_body, get_file_hash, hfs]
    by_cases hc : st0.initialization_complete = false
    · simp [hc, exceptOk]
    · simp only [if_neg hc]
      cases hdg : dictGet (md5 b) st0.transcription_cache with
      | some cached => simp [exceptOk]
      | none =>
        cases hp : pipe path with
        | raise msg => simp [exceptOk]
        | invalid => simp [exceptOk]
        | ret text chunks => by_cases ht : pyStrip text = "" <;> simp [ht, exceptOk]
  · intro mkdirOk loadOk engine md5 fs st path language e b hfs hinit
    obtain ⟨st0, hI⟩ := init_step_mkdir_ok mkdirOk loadOk st hinit
    simp only [fw_transcribe, hI, fw_transcribe_body, get_file_hash, hfs]
    by_cases hc : st0.initialization_complete = false
    · simp [hc, exceptOk]
    · simp only [if_neg hc]
      cases hdg : dictGet (md5 b) st0.transcription_cache with
      | some cached => simp [exceptOk]
      | none =>
        cases hp : engine path with
        | raise msg => simp [exceptOk]
        | ret segs info => simp [exceptOk]
  · intro initOk mimeOf audioCall videoCall md5 fs st path language e b hfs
    simp only [gm_transcribe, gm_transcribe_body, get_file_hash, hfs]
    by_cases hc : (init_step initOk st).initialization_complete = false
    · simp [hc, exceptOk]
    · simp only [if_neg hc]
      cases hdg : dictGet (md5 b) (init_step initOk st).transcription_cache with
      | some cached => simp [exceptOk]
      | none =>
        simp only [hdg]
        split <;> simp [exceptOk]

/-- Witness for C3's amended theorem on concrete readable files: once on an
already-initialized provider, once through a successful mkdir on an
uninitialized one. -/
theorem c3_amended_no_raise_when_hashable_witness :
    exceptOk (dw_transcribe true true (fun _ => PipeOut.ret "ola" [])
      (fun bs => "md5-" ++ toString bs.length)
      (fun _ => some [1, 2, 3]) ⟨true, []⟩ "a.mp3" 1) = true ∧
    exceptOk (fw_transcribe true true (fun _ => FWOut.ret [] ⟨some "pt", some (9/10)⟩)
      (fun bs => "md5-" ++ toString bs.length)
      (fun _ => some [1, 2, 3]) ⟨false, []⟩ "a.mp3" "pt" 1) = true ∧
    exceptOk (gm_transcribe true (fun _ => some "audio/mpeg") (fun _ => GMCall.resp "ola")
      (fun _ => GMCall.resp "ola") (fun bs => "md5-" ++ toString bs.length)
      (fun _ => some [1, 2, 3]) ⟨true, []⟩ "a.mp3" "pt" 1) = true := by
  refine ⟨?_, ?_, ?_⟩
  · exact c3_amended_no_raise_when_hashable.1 true true _ _ _ _ "a.mp3" 1 [1, 2, 3] rfl
      (Or.inl rfl)
  · exact c3_amended_no_raise_when_hashable.2.1 true true _ _ _ _ "a.mp3" "pt" 1 [1, 2, 3] rfl
      (Or.inr rfl)
  · exact c3_amended_no_raise_when_hashable.2.2 true _ _ _ _ _ _ "a.mp3" "pt" 1 [1, 2, 3] rfl

-- ===== C4 =====

/-- C4: after a first successful (error-free) transcribe, a second call on
any path whose file content has the same hash returns the cached result —
the identical TranscriptionResult, hence bit-identical text — with the
engine not invoked and the provider state unchanged; the cache key is the
content hash, never the path. Holds for all three providers. -/
theorem c4_cache_hit_by_content :
    (∀ (mkdirOk loadOk : Bool) (pipe : String → PipeOut) (md5 : List Nat → String)
        (fs : String → Option (List Nat)) (st : ProviderState) (path1 path2 : String)
        (e1 e2 : Rat) (b1 b2 : List Nat) (r : TranscriptionResult) (st1 : ProviderState) (inv1 : Bool),
      fs path1 = some b1 → fs path2 = some b2 → md5 b2 = md5 b1 →
      dw_transcribe mkdirOk loadOk pipe md5 fs st path1 e1 = .ok (r, st1, inv1) →
      r.error_message = none →
      dw_transcribe mkdirOk loadOk pipe md5 fs st1 path2 e2 = .ok (r, st1, false)) ∧
    (∀ (mkdirOk loadOk : Bool) (engine : String → FWOut) (md5 : List Nat → String)
        (fs : String → Option (List Nat)) (st : ProviderState) (path1 path2 lang1 lang2 : String)
        (e1 e2 : Rat) (b1 b2 : List Nat) (r : TranscriptionResult) (st1 : ProviderState) (inv1 : Bool),
      fs path1 = some b1 → fs path2 = some b2 → md5 b2 = md5 b1 →
      fw_transcribe mkdirOk loadOk engine md5 fs st path1 lang1 e1 = .ok (r, st1, inv1) →
      r.error_message = none →
      fw_transcribe mkdirOk loadOk engine md5 fs st1 path2 lang2 e2 = .ok (r, st1, false)) ∧
    (∀ (initOk : Bool) (mimeOf : String → Option String) (audioCall videoCall : String → GMCall)
        (md5 : List Nat → String) (fs : String → Option (List Nat)) (st : ProviderState)
        (path1 path2 lang1 lang2 : String) (e1 e2 : Rat) (b1 b2 : List Nat)
        (r : TranscriptionResult) (st1 : ProviderState) (inv1 : Bool),
      fs path1 = some b1 → fs path2 = some b2 → md5 b2 = md5 b1 →
      gm_transcribe initOk mimeOf audioCall videoCall md5 fs st path1 lang1 e1 = .ok (r, st1, inv1) →
      r.error_message = none →
      gm_transcribe initOk mimeOf audioCall videoCall md5 fs st1 path2 lang2 e2 = .ok (r, st1, false)) := by
  refine ⟨?_, ?_, ?_⟩
  · intro mkdirOk loadOk pipe md5 fs st path1 path2 e1 e2 b1 b2 r st1 inv1 hfs1 hfs2 hmd hcall herr
    obtain ⟨hcomp, hcache⟩ := dw_success_cached mkdirOk loadOk pipe md5 fs st path1 e1 b1 r st1 inv1 hfs1 hcall herr
    simp [dw_transcribe, dw_transcribe_body, init_step_mkdir_of_complete mkdirOk loadOk st1 hcomp,
      hcomp, get_file_hash, hfs2, hmd, hcache]
  · intro mkdirOk loadOk engine md5 fs st path1 path2 lang1 lang2 e1 e2 b1 b2 r st1 inv1 hfs1 hfs2 hmd hcall herr
    obtain ⟨hcomp, hcache⟩ := fw_success_cached mkdirOk loadOk engine md5 fs st path1 lang1 e1 b1 r st1 inv1 hfs1 hcall herr
    simp [fw_transcribe, fw_transcribe_body, init_step_mkdir_of_complete mkdirOk loadOk st1 hcomp,
      hcomp, get_file_hash, hfs2, hmd, hcache]
  · intro initOk mimeOf audioCall videoCall md5 fs st path1 path2 lang1 lang2 e1 e2 b1 b2 r st1 inv1 hfs1 hfs2 hmd hcall herr
    obtain ⟨hcomp, hcache⟩ := gm_success_cached initOk mimeOf audioCall videoCall md5 fs st path1 lang1 e1 b1 r st1 inv1 hfs1 hcall herr
    simp [gm_transcribe, gm_transcribe_body, init_step_of_complete _ _ hcomp, hcomp,
      get_file_hash, hfs2, hmd, hcache]

/-- Extract the engine-invocation flag of a provider transcribe outcome. -/
def invokedEngine : Except String (TranscriptionResult × ProviderState × Bool) → Bool
  | .ok (_, _, b) => b
  | .error _ => false

/-- An error-valued dw_transcribe outcome leaves the cache unchanged. -/
theorem dw_error_cache_unchanged (mkdirOk loadOk : Bool) (pipe : String → PipeOut)
    (md5 : List Nat → String) (fs : String → Option (List Nat)) (st : ProviderState)
    (path : String) (e : Rat) (r : TranscriptionResult) (st1 : ProviderState) (inv : Bool)
    (hcall : dw_transcribe mkdirOk loadOk pipe md5 fs st path e = .ok (r, st1, inv))
    (herr : r.error_message.isSome = true) :
    st1.transcription_cache = st.transcription_cache := by
  simp only [dw_transcribe] at hcall
  cases hI : init_step_mkdir mkdirOk loadOk st with
  | error er =>
    rw [hI] at hcall
    exact absurd hcall (by simp)
  | ok st0 =>
    rw [hI] at hcall
    have hc0 : st0.transcription_cache = st.transcription_cache :=
      init_step_mkdir_cache mkdirOk loadOk st st0 hI
    simp only [dw_transcribe_body, get_file_hash] at hcall
    by_cases hc : st0.initialization_complete = false
    · simp only [if_pos hc, Except.ok.injEq, Prod.mk.injEq] at hcall
      rw [← hcall.2.1, hc0]
    · simp only [if_neg hc] at hcall
      cases hfs : fs path with
      | none => simp [hfs] at hcall
      | some b =>
        simp only [hfs] at hcall
        cases hdg : dictGet (md5 b) st0.transcription_cache with
        | some cached =>
          simp only [hdg, Except.ok.injEq, Prod.mk.injEq] at hcall
          rw [← hcall.2.1, hc0]
        | none =>
          simp only [hdg] at hcall
          cases hp : pipe path with
          | raise msg =>
            simp only [hp, Except.ok.injEq, Prod.mk.injEq] at hcall
            rw [← hcall.2.1, hc0]
          | invalid =>
            simp only [hp, Except.ok.injEq, Prod.mk.injEq] at hcall
            rw [← hcall.2.1, hc0]
          | ret text chunks =>
            by_cases ht : pyStrip text = ""
            · simp only [hp, if_pos ht, Except.ok.injEq, Prod.mk.injEq] at hcall
              rw [← hcall.2.1, hc0]
            · simp only [hp, if_neg ht, Except.ok.injEq, Prod.mk.injEq] at hcall
              rw [← hcall.1] at herr
              simp at herr

/-- An error-valued fw_transcribe outcome leaves the cache unchanged. -/
theorem fw_error_cache_unchanged (mkdirOk loadOk : Bool) (engine : String → FWOut)
    (md5 : List Nat → String) (fs : String → Option (List Nat)) (st : ProviderState)
    (path language : String) (e : Rat) (r : TranscriptionResult) (st1 : ProviderState) (inv : Bool)
    (hcall : fw_transcribe mkdirOk loadOk engine md5 fs st path language e = .ok (r, st1, inv))
    (herr : r.error_message.isSome = true) :
    st1.transcription_cache = st.transcription_cache := by
  simp only [fw_transcribe] at hcall
  cases hI : init_step_mkdir mkdirOk loadOk st with
  | error er =>
    rw [hI] at hcall
    exact absurd hcall (by simp)
  | ok st0 =>
    rw [hI] at hcall
    have hc0 : st0.transcription_cache = st.transcription_cache :=
      init_step_mkdir_cache mkdirOk loadOk st st0 hI
    simp only [fw_transcribe_body, get_file_hash] at hcall
    by_cases hc : st0.initialization_complete = false
    · simp only [if_pos hc, Except.ok.injEq, Prod.mk.injEq] at hcall
      rw [← hcall.2.1, hc0]
    · simp only [if_neg hc] at hcall
      cases hfs : fs path with
      | none => simp [hfs] at hcall
      | some b =>
        simp only [hfs] at hcall
        cases hdg : dictGet (md5 b) st0.transcription_cache with
        | some cached =>
          simp only [hdg, Except.ok.injEq, Prod.mk.injEq] at hcall
          rw [← hcall.2.1, hc0]
        | none =>
          simp only [hdg] at hcall
          cases hp : engine path with
          | raise msg =>
            simp only [hp, Except.ok.injEq, Prod.mk.injEq] at hcall
            rw [← hcall.2.1, hc0]
          | ret segs info =>
            simp only [hp, Except.ok.injEq, Prod.mk.injEq] at hcall
            rw [← hcall.1] at herr
            simp at herr

/-- An error-valued gm_transcribe outcome leaves the cache unchanged. -/
theorem gm_error_cache_unchanged (initOk : Bool) (mimeOf : String → Option String)
    (audioCall videoCall : String → GMCall) (md5 : List Nat → String)
    (fs : String → Option (List Nat)) (st : ProviderState) (path language : String) (e : Rat)
    (r : TranscriptionResult) (st1 : ProviderState) (inv : Bool)
    (hcall : gm_transcribe initOk mimeOf audioCall videoCall md5 fs st path language e = .ok (r, st1, inv))
    (herr : r.error_message.isSome = true) :
    st1.transcription_cache = st.transcription_cache := by
  simp only [gm_transcribe, gm_transcribe_body, get_file_hash] at hcall
  by_cases hc : (init_step initOk st).initialization_complete = false
  · simp only [if_pos hc, Except.ok.injEq, Prod.mk.injEq] at hcall
    rw [← hcall.2.1, init_step_cache]
  · simp only [if_neg hc] at hcall
    cases hfs : fs path with
    | none => simp [hfs] at hcall
    | some b =>
      simp only [hfs] at hcall
      cases hdg : dictGet (md5 b) (init_step initOk st).transcription_cache with
      | some cached =>
        simp only [hdg, Except.ok.injEq, Prod.mk.injEq] at hcall
        rw [← hcall.2.1, init_step_cache]
      | none =>
        simp only [hdg] at hcall
        by_cases hem : (gm_step mimeOf audioCall videoCall path language e).1.error_message = none
        · simp only [if_pos hem, Except.ok.injEq, Prod.mk.injEq] at hcall
          rw [← hcall.1] at herr
          rw [hem] at herr
          simp at herr
        · simp only [if_neg hem, Except.ok.injEq, Prod.mk.injEq] at hcall
          rw [← hcall.2.1, init_step_cache]

-- ===== C9 =====

/-- C9: a provider cache entry is created only by a successful
transcription — an attempt whose result carries an error leaves the cache
unchanged — so a later call for the same content hash (not previously
cached) reaches the engine again instead of returning the failed result.
The Gemini consequence additionally assumes the file's mime type dispatches
to the engine at all (audio/video); a non-media file never reaches the
engine in the source either. -/
theorem c9_error_results_never_cached :
    (∀ (mkdirOk loadOk : Bool) (pipe : String → PipeOut) (md5 : List Nat → String)
        (fs : String → Option (List Nat)) (st : ProviderState) (path : String) (e : Rat)
        (r : TranscriptionResult) (st1 : ProviderState) (inv : Bool),
      dw_transcribe mkdirOk loadOk pipe md5 fs st path e = .ok (r, st1, inv) →
      r.error_message.isSome = true →
      st1.transcription_cache = st.transcription_cache) ∧
    (∀ (mkdirOk loadOk : Bool) (engine : String → FWOut) (md5 : List Nat → String)
        (fs : String → Option (List Nat)) (st : ProviderState) (path language : String) (e : Rat)
        (r : TranscriptionResult) (st1 : ProviderState) (inv : Bool),
      fw_transcribe mkdirOk loadOk engine md5 fs st path language e = .ok (r, st1, inv) →
      r.error_message.isSome = true →
      st1.transcription_cache = st.transcription_cache) ∧
    (∀ (initOk : Bool) (mimeOf : String → Option String) (audioCall videoCall : String → GMCall)
        (md5 : List Nat → String) (fs : String → Option (List Nat)) (st : ProviderState)
        (path language : String) (e : Rat) (r : TranscriptionResult) (st1 : ProviderState) (inv : Bool),
      gm_transcribe initOk mimeOf audioCall videoCall md5 fs st path language e = .ok (r, st1, inv) →
      r.error_message.isSome = true →
      st1.transcription_cache = st.transcription_cache) ∧
    (∀ (mkdirOk loadOk : Bool) (pipe : String → PipeOut) (md5 : List Nat → String)
        (fs : String → Option (List Nat)) (st : ProviderState) (path path2 : String) (e e2 : Rat)
        (b b2 : List Nat) (r : TranscriptionResult) (st1 : ProviderState) (inv : Bool),
      fs path = some b → fs path2 = some b2 → md5 b2 = md5 b →
      dictGet (md5 b) st.transcription_cache = none →
      dw_transcribe mkdirOk loadOk pipe md5 fs st path e = .ok (r, st1, inv) →
      r.error_message.isSome = true →
      st1.initialization_complete = true →
      invokedEngine (dw_transcribe mkdirOk loadOk pipe md5 fs st1 path2 e2) = true) ∧
    (∀ (mkdirOk loadOk : Bool) (engine : String → FWOut) (md5 : List Nat → String)
        (fs : String → Option (List Nat)) (st : ProviderState) (path path2 lang lang2 : String)
        (e e2 : Rat) (b b2 : List Nat) (r : TranscriptionResult) (st1 : ProviderState) (inv : Bool),
      fs path = some b → fs path2 = some b2 → md5 b2 = md5 b →
      dictGet (md5 b) st.transcription_cache = none →
      fw_transcribe mkdirOk loadOk engine md5 fs st path lang e = .ok (r, st1, inv) →
      r.error_message.isSome = true →
      st1.initialization_complete = true →
      invokedEngine (fw_transcribe mkdirOk loadOk engine md5 fs st1 path2 lang2 e2) = true) ∧
    (∀ (initOk : Bool) (mimeOf : String → Option String) (audioCall videoCall : String → GMCall)
        (md5 : List Nat → String) (fs : String → Option (List Nat)) (st : ProviderState)
        (path path2 lang lang2 : String) (e e2 : Rat) (b b2 : List Nat)
        (r : TranscriptionResult) (st1 : ProviderState) (inv : Bool),
      fs path = some b → fs path2 = some b2 → md5 b2 = md5 b →
      dictGet (md5 b) st.transcription_cache = none →
      gm_transcribe initOk mimeOf audioCall videoCall md5 fs st path lang e = .ok (r, st1, inv) →
      r.error_message.isSome = true →
      st1.initialization_complete = true →
      (gm_step mimeOf audioCall videoCall path2 lang2 e2).2 = true →
      invokedEngine (gm_transcribe initOk mimeOf audioCall videoCall md5 fs st1 path2 lang2 e2) = true) := by
  refine ⟨dw_error_cache_unchanged, fw_error_cache_unchanged, gm_error_cache_unchanged, ?_, ?_, ?_⟩
  · intro mkdirOk loadOk pipe md5 fs st path path2 e e2 b b2 r st1 inv hfs hfs2 hmd hnone hcall herr hcomp
    have hcache := dw_error_cache_unchanged mkdirOk loadOk pipe md5 fs st path e r st1 inv hcall herr
    have hdg2 : dictGet (md5 b2) st1.transcription_cache = none := by
      rw [hmd, hcache]; exact hnone
    simp only [dw_transcribe, dw_transcribe_body,
      init_step_mkdir_of_complete mkdirOk loadOk st1 hcomp, hcomp, get_file_hash, hfs2, hdg2]
    cases hp : pipe path2 with
    | raise msg => simp [invokedEngine]
    | invalid => simp [invokedEngine]
    | ret text chunks => by_cases ht : pyStrip text = "" <;> simp [ht, invokedEngine]
  · intro mkdirOk loadOk engine md5 fs st path path2 lang lang2 e e2 b b2 r st1 inv hfs hfs2 hmd hnone hcall herr hcomp
    have hcache := fw_error_cache_unchanged mkdirOk loadOk engine md5 fs st path lang e r st1 inv hcall herr
    have hdg2 : dictGet (md5 b2) st1.transcription_cache = none := by
      rw [hmd, hcache]; exact hnone
    simp only [fw_transcribe, fw_transcribe_body,
      init_step_mkdir_of_complete mkdirOk loadOk st1 hcomp, hcomp, get_file_hash, hfs2, hdg2]
    cases hp : engine path2 with
    | raise msg => simp [invokedEngine]
    | ret segs info => simp [invokedEngine]
  · intro initOk mimeOf audioCall videoCall md5 fs st path path2 lang lang2 e e2 b b2 r st1 inv
      hfs hfs2 hmd hnone hcall herr hcomp hmedia
    have hcache := gm_error_cache_unchanged initOk mimeOf audioCall videoCall md5 fs st path lang e r st1 inv hcall herr
    have hdg2 : dictGet (md5 b2) st1.transcription_cache = none := by
      rw [hmd, hcache]; exact hnone
    simp only [gm_transcribe, gm_transcribe_body, init_step_of_complete _ _ hcomp, hcomp,
      get_file_hash, hfs2, hdg2]
    by_cases hem : (gm_step mimeOf audioCall videoCall path2 lang2 e2).1.error_message = none <;>
      simp [hem, invokedEngine, hmedia]

-- ===== Witness fixtures for the provider-level claims =====

/-- Digest function used by witnesses: a function of the bytes only. -/
def md5len : List Nat → String := fun bs => "md5-" ++ toString bs.length

/-- File system used by witnesses: two names for the same three bytes. -/
def fsAB : String → Option (List Nat) :=
  fun p => if p = "a.mp3" || p = "b.mp3" then some [1, 2, 3] else none

/-- Initialized provider state with an empty cache. -/
def stReady : ProviderState := ⟨true, []⟩

/-- Initialized provider state whose cache already holds resOkHigh under
the hash of the witness file content. -/
def stCached : ProviderState := ⟨true, [("md5-3", resOkHigh)]⟩

/-- Witness for C4: with the result already cached under the content hash,
a call on the differently named copy b.mp3 returns the identical result
from the cache for each of the three providers, engine not invoked. -/
theorem c4_cache_hit_by_content_witness :
    dw_transcribe true true (fun _ => PipeOut.raise "never") md5len fsAB stCached "b.mp3" 2 =
      .ok (resOkHigh, stCached, false) ∧
    fw_transcribe true true (fun _ => FWOut.raise "never") md5len fsAB stCached "b.mp3" "pt" 2 =
      .ok (resOkHigh, stCached, false) ∧
    gm_transcribe true (fun _ => some "audio/mpeg") (fun _ => GMCall.resp "ola")
      (fun _ => GMCall.resp "ola") md5len fsAB stCached "b.mp3" "pt" 2 =
      .ok (resOkHigh, stCached, false) := by
  refine ⟨?_, ?_, ?_⟩
  · exact c4_cache_hit_by_content.1 true true _ md5len fsAB stCached "a.mp3" "b.mp3" 1 2
      [1, 2, 3] [1, 2, 3] resOkHigh stCached false rfl rfl rfl rfl rfl
  · exact c4_cache_hit_by_content.2.1 true true _ md5len fsAB stCached "a.mp3" "b.mp3" "pt" "pt" 1 2
      [1, 2, 3] [1, 2, 3] resOkHigh stCached false rfl rfl rfl rfl rfl
  · exact c4_cache_hit_by_content.2.2 true _ _ _ md5len fsAB stCached "a.mp3" "b.mp3" "pt" "pt" 1 2
      [1, 2, 3] [1, 2, 3] resOkHigh stCached false rfl rfl rfl rfl rfl

/-- Witness for C9: a raising engine produces an error result, the cache
stays empty, and the follow-up call on the same content reaches the engine
again, for each provider (plus the two pure cache-unchanged conjuncts). -/
theorem c9_error_results_never_cached_witness :
    stReady.transcription_cache = stReady.transcription_cache ∧
    invokedEngine (dw_transcribe true true (fun _ => PipeOut.raise "boom") md5len fsAB stReady "b.mp3" 2) = true ∧
    invokedEngine (fw_transcribe true true (fun _ => FWOut.raise "boom") md5len fsAB stReady "b.mp3" "pt" 2) = true ∧
    invokedEngine (gm_transcribe true (fun _ => some "audio/mpeg") (fun _ => GMCall.exn "boom")
      (fun _ => GMCall.exn "boom") md5len fsAB stReady "b.mp3" "pt" 2) = true := by
  refine ⟨?_, ?_, ?_, ?_⟩
  · exact c9_error_results_never_cached.1 true true (fun _ => PipeOut.raise "boom") md5len fsAB
      stReady "a.mp3" 1 (dwFail "a.mp3" 1 "boom") stReady true rfl rfl
  · exact c9_error_results_never_cached.2.2.2.1 true true (fun _ => PipeOut.raise "boom") md5len fsAB
      stReady "a.mp3" "b.mp3" 1 2 [1, 2, 3] [1, 2, 3] (dwFail "a.mp3" 1 "boom") stReady true
      rfl rfl rfl rfl rfl rfl rfl
  · exact c9_error_results_never_cached.2.2.2.2.1 true true (fun _ => FWOut.raise "boom") md5len fsAB
      stReady "a.mp3" "b.mp3" "pt" "pt" 1 2 [1, 2, 3] [1, 2, 3]
      { text := "", confidence := 0, processing_time := 1, model_used := "faster-whisper",
        language := "pt", segments := none,
        error_message := some "faster-whisper transcription failed for a.mp3: boom" }
      stReady true rfl rfl rfl rfl rfl rfl rfl
  · exact c9_error_results_never_cached.2.2.2.2.2 true (fun _ => some "audio/mpeg")
      (fun _ => GMCall.exn "boom") (fun _ => GMCall.exn "boom") md5len fsAB
      stReady "a.mp3" "b.mp3" "pt" "pt" 1 2 [1, 2, 3] [1, 2, 3]
      (gemini_attempt "audio" (GMCall.exn "boom") "a.mp3" "pt" 1)
      stReady true rfl rfl rfl rfl rfl rfl rfl rfl

-- ===== C6 =====

/-- The no-error result FasterWhisper produces when the engine yields zero
segments (e.g. everything filtered out by VAD) and reports a
language_probability of 0.0: empty text and zero confidence with no error. -/
def fwEmptyRes : TranscriptionResult :=
  { text := "", confidence := 0, processing_time := 2, model_used := "faster-whisper",
    language := "pt", segments := some [], error_message := none }

/-- C6 counterexample: FasterWhisper's transcribe, on an engine outcome with
zero segments and language probability 0.0, returns (and caches) a result
whose text is empty and whose confidence is 0.0 while its error field is
NOT set — refuting both "text is empty iff error is set" and "confidence
is 0.0 iff error is set". -/
theorem c6_counterexample :
    fw_transcribe true true (fun _ => FWOut.ret [] ⟨some "pt", some 0⟩) md5len
      (fun _ => some [1, 2, 3]) stReady "silent.wav" "pt" 2 =
      .ok (fwEmptyRes, ⟨true, [("md5-3", fwEmptyRes)]⟩, true) ∧
    ¬ ((fwEmptyRes.text = "") ↔ fwEmptyRes.error_message.isSome = true) ∧
    ¬ ((fwEmptyRes.confidence = 0) ↔ fwEmptyRes.error_message.isSome = true) := by
  refine ⟨rfl, ?_, ?_⟩
  · have h1 : fwEmptyRes.text = "" := rfl
    have h2 : fwEmptyRes.error_message = none := rfl
    rw [h1, h2]
    simp
  · have h3 : fwEmptyRes.confidence = 0 := rfl
    have h2 : fwEmptyRes.error_message = none := rfl
    rw [h3, h2]
    simp

/-- Unpack a prependInvoked outcome equal to an ok value. -/
theorem prependInvoked_ok (name : String)
    (X : Except String (TranscriptionResult × List String × MState))
    (r : TranscriptionResult) (tr : List String) (s2 : MState)
    (h : prependInvoked name X = .ok (r, tr, s2)) :
    ∃ tr1, X = .ok (r, tr1, s2) ∧ tr = name :: tr1 := by
  cases X with
  | error e => simp [prependInvoked] at h
  | ok y =>
    obtain ⟨res, tr1, s3⟩ := y
    simp only [prependInvoked, Except.ok.injEq, Prod.mk.injEq] at h
    exact ⟨tr1, by rw [h.1, h.2.2], h.2.1.symm⟩

/-- Every ok outcome of the manager walk whose result carries an error is
the synthetic exhaustion result shape: empty text, zero confidence. -/
theorem loop_error_shape (threshold : Rat) (language : String) :
    ∀ (chain : List String) (s : MState) (r : TranscriptionResult) (tr : List String) (s2 : MState),
      transcribe_loop threshold language s chain = .ok (r, tr, s2) →
      r.error_message.isSome = true → r.text = "" ∧ r.confidence = 0 := by
  intro chain
  induction chain with
  | nil =>
    intro s r tr s2 hcall herr
    simp only [transcribe_loop, Except.ok.injEq, Prod.mk.injEq] at hcall
    rw [← hcall.1]
    exact ⟨rfl, rfl⟩
  | cons name rest ih =>
    intro s r tr s2 hcall herr
    simp only [transcribe_loop] at hcall
    cases hp : dictGet name s.providers with
    | none =>
      simp only [hp] at hcall
      exact ih s r tr s2 hcall herr
    | some p =>
      simp only [hp] at hcall
      rcases hE : ensure_provider_initialized s name with ⟨ok, s1⟩
      simp only [hE] at hcall
      cases ok with
      | false => exact ih s1 r tr s2 hcall herr
      | true =>
        cases hT : p.transcribeSeq ((dictGet name s1.transcribeCount).getD 0) with
        | error e =>
          simp only [hT] at hcall
          exact absurd hcall (by simp)
        | ok result =>
          simp only [hT] at hcall
          by_cases hre : result.error_message.isSome = true
          · simp only [if_pos hre] at hcall
            obtain ⟨tr1, hX, htr⟩ := prependInvoked_ok _ _ _ _ _ hcall
            exact ih _ r tr1 s2 hX herr
          · simp only [if_neg hre] at hcall
            by_cases hcf : result.confidence < threshold
            · simp only [if_pos hcf] at hcall
              obtain ⟨tr1, hX, htr⟩ := prependInvoked_ok _ _ _ _ _ hcall
              exact ih _ r tr1 s2 hX herr
            · simp only [if_neg hcf, Except.ok.injEq, Prod.mk.injEq] at hcall
              rw [← hcall.1] at herr
              exact absurd herr hre

/-- Cache well-formedness: every cached entry is error-free (exactly what
C9 establishes about every cache the providers themselves build). -/
def cacheWF (st : ProviderState) : Prop :=
  ∀ h r, dictGet h st.transcription_cache = some r → r.error_message = none

/-- C6 (amended): only one direction of the claimed equivalences holds —
every result carrying an error has empty text and zero confidence (for all
three providers, given an error-free cache, and for the manager walk
unconditionally); the converse is false (see the counterexample: a
provider success result may have empty text and nonzero confidence). -/
theorem c6_amended_error_implies_empty_and_zero :
    (∀ (mkdirOk loadOk : Bool) (pipe : String → PipeOut) (md5 : List Nat → String)
        (fs : String → Option (List Nat)) (st : ProviderState) (path : String) (e : Rat)
        (r : TranscriptionResult) (st1 : ProviderState) (inv : Bool), cacheWF st →
      dw_transcribe mkdirOk loadOk pipe md5 fs st path e = .ok (r, st1, inv) →
      r.error_message.isSome = true → r.text = "" ∧ r.confidence = 0) ∧
    (∀ (mkdirOk loadOk : Bool) (engine : String → FWOut) (md5 : List Nat → String)
        (fs : String → Option (List Nat)) (st : ProviderState) (path language : String) (e : Rat)
        (r : TranscriptionResult) (st1 : ProviderState) (inv : Bool), cacheWF st →
      fw_transcribe mkdirOk loadOk engine md5 fs st path language e = .ok (r, st1, inv) →
      r.error_message.isSome = true → r.text = "" ∧ r.confidence = 0) ∧
    (∀ (initOk : Bool) (mimeOf : String → Option String) (audioCall videoCall : String → GMCall)
        (md5 : List Nat → String) (fs : String → Option (List Nat)) (st : ProviderState)
        (path language : String) (e : Rat)
        (r : TranscriptionResult) (st1 : ProviderState) (inv : Bool), cacheWF st →
      gm_transcribe initOk mimeOf audioCall videoCall md5 fs st path language e = .ok (r, st1, inv) →
      r.error_message.isSome = true → r.text = "" ∧ r.confidence = 0) ∧
    (∀ (threshold : Rat) (primary : String) (fallbacks : List String) (s : MState)
        (language : String) (r : TranscriptionResult) (tr : List String) (s2 : MState),
      transcribe_audio threshold primary fallbacks s language = .ok (r, tr, s2) →
      r.error_message.isSome = true → r.text = "" ∧ r.confidence = 0) := by
  refine ⟨?_, ?_, ?_, ?_⟩
  · intro mkdirOk loadOk pipe md5 fs st path e r st1 inv hwf hcall herr
    simp only [dw_transcribe] at hcall
    cases hI : init_step_mkdir mkdirOk loadOk st with
    | error er =>
      rw [hI] at hcall
      exact absurd hcall (by simp)
    | ok st0 =>
     rw [hI] at hcall
     have hc0 : st0.transcription_cache = st.transcription_cache :=
       init_step_mkdir_cache mkdirOk loadOk st st0 hI
     simp only [dw_transcribe_body, get_file_hash] at hcall
     by_cases hc : st0.initialization_complete = false
     · simp only [if_pos hc, Except.ok.injEq, Prod.mk.injEq] at hcall
       rw [← hcall.1]
       exact ⟨rfl, rfl⟩
     · simp only [if_neg hc] at hcall
       cases hfs : fs path with
       | none => simp [hfs] at hcall
       | some b =>
        simp only [hfs] at hcall
        cases hdg : dictGet (md5 b) st0.transcription_cache with
        | some cached =>
          simp only [hdg, Except.ok.injEq, Prod.mk.injEq] at hcall
          rw [hc0] at hdg
          have := hwf _ _ hdg
          rw [← hcall.1, this] at herr
          simp at herr
        | none =>
          simp only [hdg] at hcall
          cases hpp : pipe path with
          | raise msg =>
            simp only [hpp, Except.ok.injEq, Prod.mk.injEq] at hcall
            rw [← hcall.1]
            exact ⟨rfl, rfl⟩
          | invalid =>
            simp only [hpp, Except.ok.injEq, Prod.mk.injEq] at hcall
            rw [← hcall.1]
            exact ⟨rfl, rfl⟩
          | ret text chunks =>
            by_cases ht : pyStrip text = ""
            · simp only [hpp, if_pos ht, Except.ok.injEq, Prod.mk.injEq] at hcall
              rw [← hcall.1]
              exact ⟨rfl, rfl⟩
            · simp only [hpp, if_neg ht, Except.ok.injEq, Prod.mk.injEq] at hcall
              rw [← hcall.1] at herr
              simp at herr
  · intro mkdirOk loadOk engine md5 fs st path language e r st1 inv hwf hcall herr
    simp only [fw_transcribe] at hcall
    cases hI : init_step_mkdir mkdirOk loadOk st with
    | error er =>
      rw [hI] at hcall
      exact absurd hcall (by simp)
    | ok st0 =>
     rw [hI] at hcall
     have hc0 : st0.transcription_cache = st.transcription_cache :=
       init_step_mkdir_cache mkdirOk loadOk st st0 hI
     simp only [fw_transcribe_body, get_file_hash] at hcall
     by_cases hc : st0.initialization_complete = false
     · simp only [if_pos hc, Except.ok.injEq, Prod.mk.injEq] at hcall
       rw [← hcall.1]
       exact ⟨rfl, rfl⟩
     · simp only [if_neg hc] at hcall
       cases hfs : fs path with
       | none => simp [hfs] at hcall
       | some b =>
        simp only [hfs] at hcall
        cases hdg : dictGet (md5 b) st0.transcription_cache with
        | some cached =>
          simp only [hdg, Except.ok.injEq, Prod.mk.injEq] at hcall
          rw [hc0] at hdg
          have := hwf _ _ hdg
          rw [← hcall.1, this] at herr
          simp at herr
        | none =>
          simp only [hdg] at hcall
          cases hpp : engine path with
          | raise msg =>
            simp only [hpp, Except.ok.injEq, Prod.mk.injEq] at hcall
            rw [← hcall.1]
            exact ⟨rfl, rfl⟩
          | ret segs info =>
            simp only [hpp, Except.ok.injEq, Prod.mk.injEq] at hcall
            rw [← hcall.1] at herr
            simp at herr
  · intro initOk mimeOf audioCall videoCall md5 fs st path language e r st1 inv hwf hcall herr
    simp only [gm_transcribe, gm_transcribe_body, get_file_hash] at hcall
    by_cases hc : (init_step initOk st).initialization_complete = false
    · simp only [if_pos hc, Except.ok.injEq, Prod.mk.injEq] at hcall
      rw [← hcall.1]
      exact ⟨rfl, rfl⟩
    · simp only [if_neg hc] at hcall
      cases hfs : fs path with
      | none => simp [hfs] at hcall
      | some b =>
        simp only [hfs] at hcall
        cases hdg : dictGet (md5 b) (init_step initOk st).transcription_cache with
        | some cached =>
          simp only [hdg, Except.ok.injEq, Prod.mk.injEq] at hcall
          rw [init_step_cache] at hdg
          have := hwf _ _ hdg
          rw [← hcall.1, this] at herr
          simp at herr
        | none =>
          simp only [hdg] at hcall
          by_cases hem : (gm_step mimeOf audioCall videoCall path language e).1.error_message = none
          · simp only [if_pos hem, Except.ok.injEq, Prod.mk.injEq] at hcall
            rw [← hcall.1, hem] at herr
            simp at herr
          · simp only [if_neg hem, Except.ok.injEq, Prod.mk.injEq] at hcall
            rw [← hcall.1]
            rw [← hcall.1] at herr
            unfold gm_step at herr ⊢
            unfold gm_step at hem
            cases hm : mimeOf path with
            | none => simp [hm, gm_unsupported]
            | some m =>
              by_cases ha : str_startsWith m "audio" = true
              · simp only [hm, if_pos ha] at herr ⊢
                cases hac : audioCall path with
                | resp t =>
                  by_cases htt : t = ""
                  · simp [gemini_attempt, hac, htt]
                  · simp only [gemini_attempt, hac, if_neg htt] at herr
                    simp at herr
                | timeout => simp [gemini_attempt, hac]
                | exn m2 => simp [gemini_attempt, hac]
              · simp only [hm, if_neg ha] at herr ⊢
                by_cases hv : str_startsWith m "video" = true
                · simp only [if_pos hv] at herr ⊢
                  cases hvc : videoCall path with
                  | resp t =>
                    by_cases htt : t = ""
                    · simp [gemini_attempt, hvc, htt]
                    · simp only [gemini_attempt, hvc, if_neg htt] at herr
                      simp at herr
                  | timeout => simp [gemini_attempt, hvc]
                  | exn m2 => simp [gemini_attempt, hvc]
                · simp [if_neg hv, gm_unsupported]
  · intro threshold primary fallbacks s language r tr s2 hcall herr
    exact loop_error_shape threshold language (primary :: fallbacks) s r tr s2 hcall herr

/-- Witness for C6's amended theorem: a concrete erroring attempt per
provider and an exhausted manager walk. -/
theorem c6_amended_error_implies_empty_and_zero_witness :
    ((dwFail "a.mp3" 1 "boom").text = "" ∧ (dwFail "a.mp3" 1 "boom").confidence = 0) ∧
    ((gemini_attempt "audio" (GMCall.exn "boom") "a.mp3" "pt" 1).text = "" ∧
      (gemini_attempt "audio" (GMCall.exn "boom") "a.mp3" "pt" 1).confidence = 0) ∧
    (allFailedResult "pt").text = "" ∧ (allFailedResult "pt").confidence = 0 := by
  refine ⟨?_, ?_, ?_⟩
  · exact c6_amended_error_implies_empty_and_zero.1 true true (fun _ => PipeOut.raise "boom") md5len
      fsAB stReady "a.mp3" 1 (dwFail "a.mp3" 1 "boom") stReady true
      (fun h r hr => by simp [stReady, dictGet] at hr) rfl rfl
  · exact c6_amended_error_implies_empty_and_zero.2.2.1 true (fun _ => some "audio/mpeg")
      (fun _ => GMCall.exn "boom") (fun _ => GMCall.exn "boom") md5len fsAB stReady "a.mp3" "pt" 1
      (gemini_attempt "audio" (GMCall.exn "boom") "a.mp3" "pt" 1) stReady true
      (fun h r hr => by simp [stReady, dictGet] at hr) rfl rfl
  · exact c6_amended_error_implies_empty_and_zero.2.2.2 1 "Z" [] ⟨[], [], [], [], []⟩ "pt"
      (allFailedResult "pt") [] ⟨[], [], [], [], []⟩ rfl rfl

-- ===== Helper lemmas for the fallback-walk refinement (C1/C2) =====

theorem ensure_providers_unchanged (s : MState) (name : String) :
    (ensure_provider_initialized s name).2.providers = s.providers := by
  unfold ensure_provider_initialized
  cases h : dictGet name s.providers with
  | none => rfl
  | some p =>
    cases hf : (dictGet name s.initialized).getD false <;> simp [hf]

theorem ensure_initCount_frame (s : MState) (name n : String) (hn : n ≠ name) :
    (dictGet n (ensure_provider_initialized s name).2.initCount).getD 0 =
      (dictGet n s.initCount).getD 0 := by
  unfold ensure_provider_initialized
  cases h : dictGet name s.providers with
  | none => rfl
  | some p =>
    cases hf : (dictGet name s.initialized).getD false with
    | true => simp [hf]
    | false => simp [hf, dictGet_insert_ne _ _ _ _ hn]

theorem ensure_transcribeCount_unchanged (s : MState) (name : String) :
    (ensure_provider_initialized s name).2.transcribeCount = s.transcribeCount := by
  unfold ensure_provider_initialized
  cases h : dictGet name s.providers with
  | none => rfl
  | some p =>
    cases hf : (dictGet name s.initialized).getD false <;> simp [hf]

theorem det_of_providers_eq (s s2 : MState) (h : s2.providers = s.providers)
    (hd : deterministicProviders s) : deterministicProviders s2 := by
  intro name p hp
  rw [h] at hp
  exact hd name p hp

theorem flags_sound_of_eq (s s2 : MState) (hp : s2.providers = s.providers)
    (hi : s2.initialized = s.initialized) (hf : initFlagsSound s) : initFlagsSound s2 := by
  intro name p hpp hflag
  rw [hp] at hpp
  rw [hi] at hflag
  exact hf name p hpp hflag

theorem flags_sound_ensure (s : MState) (name : String)
    (hd : deterministicProviders s) (hf : initFlagsSound s) :
    initFlagsSound (ensure_provider_initialized s name).2 := by
  intro n p hp hflag
  rw [ensure_providers_unchanged] at hp
  unfold ensure_provider_initialized at hflag
  cases hq : dictGet name s.providers with
  | none =>
    rw [hq] at hflag
    exact hf n p hp hflag
  | some q =>
    rw [hq] at hflag
    cases hfl : (dictGet name s.initialized).getD false with
    | true =>
      simp only [hfl] at hflag
      exact hf n p hp (by simpa using hflag)
    | false =>
      simp only [hfl, Bool.false_eq_true, if_false] at hflag
      cases hok : q.initSeq ((dictGet name s.initCount).getD 0) with
      | false =>
        simp only [hok, Bool.false_eq_true, if_false] at hflag
        exact hf n p hp hflag
      | true =>
        simp only [hok, if_true] at hflag
        by_cases hn : n = name
        · subst hn
          rw [hp] at hq
          injection hq with hq2
          subst hq2
          rw [← (hd n p hp).1 ((dictGet n s.initCount).getD 0)]
          exact hok
        · rw [dictGet_insert_ne _ _ _ _ hn] at hflag
          exact hf n p hp hflag

theorem ensure_false_initSeq (s : MState) (name : String) (p : PRV)
    (hp : dictGet name s.providers = some p) (hd : deterministicProviders s)
    (hE : (ensure_provider_initialized s name).1 = false) :
    p.initSeq 0 = false := by
  unfold ensure_provider_initialized at hE
  rw [hp] at hE
  cases hfl : (dictGet name s.initialized).getD false with
  | true => simp [hfl] at hE
  | false =>
    simp only [hfl, Bool.false_eq_true, if_false] at hE
    rw [(hd name p hp).1 ((dictGet name s.initCount).getD 0)] at hE
    exact hE

theorem ensure_true_initSeq (s : MState) (name : String) (p : PRV)
    (hp : dictGet name s.providers = some p) (hd : deterministicProviders s)
    (hf : initFlagsSound s) (hE : (ensure_provider_initialized s name).1 = true) :
    p.initSeq 0 = true := by
  unfold ensure_provider_initialized at hE
  rw [hp] at hE
  cases hfl : (dictGet name s.initialized).getD false with
  | true => exact hf name p hp hfl
  | false =>
    simp only [hfl, Bool.false_eq_true, if_false] at hE
    rw [(hd name p hp).1 ((dictGet name s.initCount).getD 0)] at hE
    exact hE

/-- The manager walk refines the spec-side selection: under per-provider
deterministic, non-raising outcomes and sound initialized flags, it returns
the spec-selected first acceptable result, or the synthetic exhaustion
result when no candidate is acceptable. -/
theorem loop_matches_spec (threshold : Rat) (language : String) :
    ∀ (chain : List String) (s : MState),
      deterministicProviders s → initFlagsSound s →
      ∃ tr s2, transcribe_loop threshold language s chain =
        .ok ((match specFirstAcceptable threshold (fun n => dictGet n s.providers) chain with
              | some ir => ir.2
              | none => allFailedResult language), tr, s2) := by
  intro chain
  induction chain with
  | nil =>
    intro s hd hf
    exact ⟨[], s, rfl⟩
  | cons name rest ih =>
    intro s hd hf
    cases hp : dictGet name s.providers with
    | none =>
      obtain ⟨tr, s2, hrec⟩ := ih s hd hf
      refine ⟨tr, s2, ?_⟩
      simp only [transcribe_loop, specFirstAcceptable, hp]
      rw [hrec]
      cases hsr : specFirstAcceptable threshold (fun n => dictGet n s.providers) rest <;>
        simp [hsr]
    | some p =>
      rcases hE : ensure_provider_initialized s name with ⟨ok, s1⟩
      have hprov1 : s1.providers = s.providers := by
        have h := ensure_providers_unchanged s name
        rw [hE] at h
        exact h
      have hd1 : deterministicProviders s1 := det_of_providers_eq s s1 hprov1 hd
      have hf1 : initFlagsSound s1 := by
        have h := flags_sound_ensure s name hd hf
        rw [hE] at h
        exact h
      have hreg1 : (fun n => dictGet n s1.providers) = (fun n => dictGet n s.providers) := by
        funext n
        rw [hprov1]
      cases ok with
      | false =>
        have h0 : p.initSeq 0 = false := by
          apply ensure_false_initSeq s name p hp hd
          rw [hE]
        obtain ⟨tr, s2, hrec⟩ := ih s1 hd1 hf1
        refine ⟨tr, s2, ?_⟩
        simp only [transcribe_loop, specFirstAcceptable, hp, hE, h0, Bool.false_eq_true, if_false]
        rw [hrec, hreg1]
        cases hsr : specFirstAcceptable threshold (fun n => dictGet n s.providers) rest <;>
          simp [hsr]
      | true =>
        have h1 : p.initSeq 0 = true := by
          apply ensure_true_initSeq s name p hp hd hf
          rw [hE]
        obtain ⟨hdetI, hdetT, hok⟩ := hd name p hp
        cases hT0 : p.transcribeSeq 0 with
        | error e =>
          rw [hT0] at hok
          simp [exceptOk] at hok
        | ok r0 =>
          have hTk : p.transcribeSeq ((dictGet name s1.transcribeCount).getD 0) = .ok r0 := by
            rw [hdetT _, hT0]
          have hd2 : deterministicProviders (bumpTranscribeCount s1 name) :=
            det_of_providers_eq s _ hprov1 hd
          have hf2 : initFlagsSound (bumpTranscribeCount s1 name) :=
            flags_sound_of_eq s1 _ rfl rfl hf1
          have hreg2 : (fun n => dictGet n (bumpTranscribeCount s1 name).providers) =
              (fun n => dictGet n s.providers) := hreg1
          by_cases hacc : r0.error_message = none ∧ threshold ≤ r0.confidence
          · have herr : r0.error_message.isSome = false := by simp [hacc.1]
            have hcf : ¬ (r0.confidence < threshold) := not_lt.mpr hacc.2
            refine ⟨[name], bumpTranscribeCount s1 name, ?_⟩
            simp only [transcribe_loop, specFirstAcceptable, hp, hE, h1, hT0, hTk, herr, hcf,
              if_true, Bool.false_eq_true, if_false]
            simp [hacc]
          · by_cases herr : r0.error_message.isSome = true
            · obtain ⟨tr, s2, hrec⟩ := ih (bumpTranscribeCount s1 name) hd2 hf2
              rw [hreg2] at hrec
              refine ⟨name :: tr, s2, ?_⟩
              simp only [transcribe_loop, specFirstAcceptable, hp, hE, h1, hT0, hTk, herr, if_true]
              rw [hrec]
              have hcond : ¬ (r0.error_message = none ∧ threshold ≤ r0.confidence) := hacc
              simp only [if_neg hcond, prependInvoked]
              cases hsr : specFirstAcceptable threshold (fun n => dictGet n s.providers) rest <;>
                simp [hsr]
            · have herr2 : r0.error_message.isSome = false := by
                cases h : r0.error_message.isSome
                · rfl
                · exact absurd h herr
              have hnone : r0.error_message = none := by
                cases h : r0.error_message with
                | none => rfl
                | some v => rw [h] at herr2; simp at herr2
              have hcf : r0.confidence < threshold := by
                by_contra hcf2
                exact hacc ⟨hnone, not_lt.mp hcf2⟩
              obtain ⟨tr, s2, hrec⟩ := ih (bumpTranscribeCount s1 name) hd2 hf2
              rw [hreg2] at hrec
              refine ⟨name :: tr, s2, ?_⟩
              simp only [transcribe_loop, specFirstAcceptable, hp, hE, h1, hT0, hTk, herr2,
                Bool.false_eq_true, if_false, hcf, if_true]
              rw [hrec]
              have hcond : ¬ (r0.error_message = none ∧ threshold ≤ r0.confidence) := hacc
              simp only [if_neg hcond, prependInvoked]
              cases hsr : specFirstAcceptable threshold (fun n => dictGet n s.providers) rest <;>
                simp [hsr]

/-- Candidates after the accepted one are never examined: walking only the
prefix of the chain up to and including the accepted candidate yields the
very same outcome (result, invocation trace and state) as walking the whole
chain. -/
theorem loop_take_accepted (threshold : Rat) (language : String) :
    ∀ (chain : List String) (s : MState) (i : Nat) (r : TranscriptionResult),
      deterministicProviders s → initFlagsSound s →
      specFirstAcceptable threshold (fun n => dictGet n s.providers) chain = some (i, r) →
      transcribe_loop threshold language s (chain.take (i + 1)) =
        transcribe_loop threshold language s chain := by
  intro chain
  induction chain with
  | nil =>
    intro s i r hd hf hacc
    simp [specFirstAcceptable] at hacc
  | cons name rest ih =>
    intro s i r hd hf hacc
    cases hp : dictGet name s.providers with
    | none =>
      simp only [specFirstAcceptable, hp] at hacc
      cases hsr : specFirstAcceptable threshold (fun n => dictGet n s.providers) rest with
      | none =>
        rw [hsr] at hacc
        simp at hacc
      | some jr =>
        obtain ⟨j, r2⟩ := jr
        rw [hsr] at hacc
        simp only [Option.map_some', Option.some.injEq, Prod.mk.injEq] at hacc
        obtain ⟨hi, hr⟩ := hacc
        subst hi
        subst hr
        rw [List.take_succ_cons]
        simp only [transcribe_loop, hp]
        exact ih s j r2 hd hf hsr
    | some p =>
      rcases hE : ensure_provider_initialized s name with ⟨ok, s1⟩
      have hprov1 : s1.providers = s.providers := by
        have h := ensure_providers_unchanged s name
        rw [hE] at h
        exact h
      have hd1 : deterministicProviders s1 := det_of_providers_eq s s1 hprov1 hd
      have hf1 : initFlagsSound s1 := by
        have h := flags_sound_ensure s name hd hf
        rw [hE] at h
        exact h
      have hreg1 : (fun n => dictGet n s1.providers) = (fun n => dictGet n s.providers) := by
        funext n
        rw [hprov1]
      cases ok with
      | false =>
        have h0 : p.initSeq 0 = false := by
          apply ensure_false_initSeq s name p hp hd
          rw [hE]
        simp only [specFirstAcceptable, hp, h0, Bool.false_eq_true, if_false] at hacc
        cases hsr : specFirstAcceptable threshold (fun n => dictGet n s.providers) rest with
        | none =>
          rw [hsr] at hacc
          simp at hacc
        | some jr =>
          obtain ⟨j, r2⟩ := jr
          rw [hsr] at hacc
          simp only [Option.map_some', Option.some.injEq, Prod.mk.injEq] at hacc
          obtain ⟨hi, hr⟩ := hacc
          subst hi
          subst hr
          rw [List.take_succ_cons]
          simp only [transcribe_loop, hp, hE]
          rw [← hreg1] at hsr
          exact ih s1 j r2 hd1 hf1 hsr
      | true =>
        have h1 : p.initSeq 0 = true := by
          apply ensure_true_initSeq s name p hp hd hf
          rw [hE]
        obtain ⟨hdetI, hdetT, hok⟩ := hd name p hp
        cases hT0 : p.transcribeSeq 0 with
        | error e =>
          rw [hT0] at hok
          simp [exceptOk] at hok
        | ok r0 =>
          have hTk : p.transcribeSeq ((dictGet name s1.transcribeCount).getD 0) = .ok r0 := by
            rw [hdetT _, hT0]
          have hd2 : deterministicProviders (bumpTranscribeCount s1 name) :=
            det_of_providers_eq s _ hprov1 hd
          have hf2 : initFlagsSound (bumpTranscribeCount s1 name) :=
            flags_sound_of_eq s1 _ rfl rfl hf1
          have hreg2 : (fun n => dictGet n (bumpTranscribeCount s1 name).providers) =
              (fun n => dictGet n s.providers) := hreg1
          simp only [specFirstAcceptable, hp, h1, if_true, hT0] at hacc
          by_cases hcond : r0.error_message = none ∧ threshold ≤ r0.confidence
          · simp only [if_pos hcond, Option.some.injEq, Prod.mk.injEq] at hacc
            obtain ⟨hi, hr⟩ := hacc
            subst hi
            subst hr
            rw [List.take_succ_cons]
            have herr : r0.error_message.isSome = false := by simp [hcond.1]
            have hcf : ¬ (r0.confidence < threshold) := not_lt.mpr hcond.2
            simp only [transcribe_loop, hp, hE, hTk, herr, Bool.false_eq_true, if_false,
              hcf, if_true]
          · simp only [if_neg hcond] at hacc
            cases hsr : specFirstAcceptable threshold (fun n => dictGet n s.providers) rest with
            | none =>
              rw [hsr] at hacc
              simp at hacc
            | some jr =>
              obtain ⟨j, r2⟩ := jr
              rw [hsr] at hacc
              simp only [Option.map_some', Option.some.injEq, Prod.mk.injEq] at hacc
              obtain ⟨hi, hr⟩ := hacc
              subst hi
              subst hr
              rw [List.take_succ_cons]
              have hih : transcribe_loop threshold language (bumpTranscribeCount s1 name) (rest.take (j + 1)) =
                  transcribe_loop threshold language (bumpTranscribeCount s1 name) rest := by
                rw [← hreg2] at hsr
                exact ih (bumpTranscribeCount s1 name) j r2 hd2 hf2 hsr
              by_cases herr : r0.error_message.isSome = true
              · simp only [transcribe_loop, hp, hE, hTk, herr, if_true]
                rw [hih]
              · have herr2 : r0.error_message.isSome = false := by
                  cases h : r0.error_message.isSome
                  · rfl
                  · exact absurd h herr
                have hnone : r0.error_message = none := by
                  cases h : r0.error_message with
                  | none => rfl
                  | some v =>
                    rw [h] at herr2
                    simp at herr2
                have hcf : r0.confidence < threshold := by
                  by_contra hcf2
                  exact hcond ⟨hnone, not_lt.mp hcf2⟩
                simp only [transcribe_loop, hp, hE, hTk, herr2, Bool.false_eq_true, if_false,
                  hcf, if_true]
                rw [hih]

-- ===== C1 =====

/-- C1: for every fallback chain and every (deterministic, result-returning)
assignment of per-provider outcomes with soundly tracked initialized flags,
transcribe_audio returns the result of the first candidate in
[primary] ++ fallbacks that is registered, initializes successfully, and
whose transcribe result has no error and confidence ≥ threshold (equality
accepted); walking only the chain prefix up to and including that candidate
yields the identical outcome, so candidates after the accepted one are
never invoked, while unregistered and init-failing candidates are skipped
without aborting the walk. -/
theorem c1_first_acceptable_wins (threshold : Rat) (primary : String) (fallbacks : List String)
    (s : MState) (language : String) (i : Nat) (r : TranscriptionResult)
    (hdet : deterministicProviders s) (hflags : initFlagsSound s)
    (hacc : specFirstAcceptable threshold (fun n => dictGet n s.providers)
      (primary :: fallbacks) = some (i, r)) :
    (∃ tr s2, transcribe_audio threshold primary fallbacks s language = .ok (r, tr, s2)) ∧
    transcribe_loop threshold language s ((primary :: fallbacks).take (i + 1)) =
      transcribe_audio threshold primary fallbacks s language := by
  constructor
  · obtain ⟨tr, s2, h⟩ := loop_matches_spec threshold language (primary :: fallbacks) s hdet hflags
    rw [hacc] at h
    exact ⟨tr, s2, h⟩
  · exact loop_take_accepted threshold language (primary :: fallbacks) s i r hdet hflags hacc

-- ===== C2 =====

/-- C2: when every candidate of the chain is skipped (unregistered, failed
initialization, errored result, or confidence below threshold — i.e. the
spec-side selection finds no acceptable candidate), transcribe_audio does
not raise and returns the synthetic failure result with empty text,
confidence 0.0, processing time 0.0, model "None", the originally requested
language, and the non-empty aggregate error message. -/
theorem c2_exhaustion_synthetic_result (threshold : Rat) (primary : String)
    (fallbacks : List String) (s : MState) (language : String)
    (hdet : deterministicProviders s) (hflags : initFlagsSound s)
    (hnone : specFirstAcceptable threshold (fun n => dictGet n s.providers)
      (primary :: fallbacks) = none) :
    (∃ tr s2, transcribe_audio threshold primary fallbacks s language =
      .ok ({ text := "", confidence := 0, processing_time := 0, model_used := "None",
             language := language, segments := none, error_message := some allFailedMsg }, tr, s2)) ∧
    allFailedMsg ≠ "" := by
  constructor
  · obtain ⟨tr, s2, h⟩ := loop_matches_spec threshold language (primary :: fallbacks) s hdet hflags
    rw [hnone] at h
    exact ⟨tr, s2, h⟩
  · simp [allFailedMsg]

-- ===== C1/C2 witness fixtures =====

/-- A full-confidence success result (confidence exactly 1). -/
def resFull : TranscriptionResult :=
  { text := "ola", confidence := 1, processing_time := 1, model_used := "B", language := "pt" }

/-- Provider that always initializes and returns resFull. -/
def prvFull : PRV :=
  { isITranscriptionProvider := true, typeName := "FullProvider",
    initSeq := fun _ => true, transcribeSeq := fun _ => .ok resFull }

/-- Provider whose initialize always fails. -/
def prvInitFail : PRV :=
  { isITranscriptionProvider := true, typeName := "InitFailProvider",
    initSeq := fun _ => false, transcribeSeq := fun _ => .ok resFull }

/-- Fresh manager registry: an erroring provider A, an init-failing
provider I, and a full-confidence provider B. -/
def mgrChain : MState := ⟨[("A", prvErr), ("I", prvInitFail), ("B", prvFull)], [], [], [], []⟩

theorem mgrChain_det : deterministicProviders mgrChain := by
  intro name p hp
  simp only [mgrChain, dictGet] at hp
  split at hp
  · cases hp
    exact ⟨fun k => rfl, fun k => rfl, rfl⟩
  · split at hp
    · cases hp
      exact ⟨fun k => rfl, fun k => rfl, rfl⟩
    · split at hp
      · cases hp
        exact ⟨fun k => rfl, fun k => rfl, rfl⟩
      · cases hp

theorem mgrChain_flags : initFlagsSound mgrChain := by
  intro name p hp hflag
  simp [mgrChain, dictGet] at hflag

/-- Witness for C1: threshold 1, chain A (errors), I (fails init),
B (accepted at confidence exactly equal to the threshold), C (unregistered
and never reached): the walk returns B's result and the three-candidate
prefix walk is already the whole outcome. -/
theorem c1_first_acceptable_wins_witness :
    (∃ tr s2, transcribe_audio 1 "A" ["I", "B", "C"] mgrChain "pt" = .ok (resFull, tr, s2)) ∧
    transcribe_loop 1 "pt" mgrChain (("A" :: ["I", "B", "C"]).take (2 + 1)) =
      transcribe_audio 1 "A" ["I", "B", "C"] mgrChain "pt" :=
  c1_first_acceptable_wins 1 "A" ["I", "B", "C"] mgrChain "pt" 2 resFull
    mgrChain_det mgrChain_flags (by decide)

/-- Witness for C2: chain A (errors), I (fails init), Z (unregistered) is
exhausted, yielding the synthetic failure result. -/
theorem c2_exhaustion_synthetic_result_witness :
    (∃ tr s2, transcribe_audio 1 "A" ["I", "Z"] mgrChain "pt" =
      .ok ({ text := "", confidence := 0, processing_time := 0, model_used := "None",
             language := "pt", segments := none, error_message := some allFailedMsg }, tr, s2)) ∧
    allFailedMsg ≠ "" :=
  c2_exhaustion_synthetic_result 1 "A" ["I", "Z"] mgrChain "pt"
    mgrChain_det mgrChain_flags (by decide)

end Transcriber
